import Mathlib

/-!
Verification of the agentic chatbot repository (`app/`): a shallow embedding
of the agent orchestrator (`app/agent/core.py`), the tool registry
(`app/agent/toolkit.py`), the intent recognizer (`app/agent/intent.py`),
the security guard (`app/guardrails/security_guard.py`) and the memory layer
(`app/agent/memory.py`), together with theorems about the embedded code.

Modelling conventions:
* Python values (the JSON-like data flowing through the agent) are embedded
  as the inductive type `PyVal`; Python `float` literals appearing in the
  source (confidence thresholds such as `0.5` and `0.65`) are embedded as
  exact rationals, which is faithful because all constants involved are
  exactly representable and only compared.
* External effects (the LLM provider, tool adapters, wall-clock time) are
  oracles: call-indexed tapes of results, so theorems quantify over every
  possible behaviour of the external world.
* The regular-expression matching done by the security guard is embedded by
  a small backtracking matcher implementing exactly the three patterns of
  `SecurityGuard.pii_patterns` with Python `re` semantics (leftmost scan,
  greedy with backtracking, word boundaries).
-/

namespace AgenticChatbot

/-- Embedded Python/JSON value, as produced by `json.loads` and passed
between the agent components.  Numbers are split into `vint` (Python `int`)
and `vrat` (Python `float`, embedded exactly as a rational). -/
inductive PyVal where
  | vnone : PyVal
  | vbool : Bool → PyVal
  | vint : Int → PyVal
  | vrat : ℚ → PyVal
  | vstr : String → PyVal
  | vlist : List PyVal → PyVal
  | vdict : List (String × PyVal) → PyVal
deriving Repr

mutual

def PyVal.beq : PyVal → PyVal → Bool
  | .vnone, .vnone => true
  | .vbool a, .vbool b => a == b
  | .vint a, .vint b => a == b
  | .vrat a, .vrat b => a == b
  | .vstr a, .vstr b => a == b
  | .vlist a, .vlist b => PyVal.beqList a b
  | .vdict a, .vdict b => PyVal.beqKvs a b
  | _, _ => false

def PyVal.beqList : List PyVal → List PyVal → Bool
  | [], [] => true
  | a :: as, b :: bs => PyVal.beq a b && PyVal.beqList as bs
  | _, _ => false

def PyVal.beqKvs : List (String × PyVal) → List (String × PyVal) → Bool
  | [], [] => true
  | (ka, va) :: as, (kb, vb) :: bs => ka == kb && PyVal.beq va vb && PyVal.beqKvs as bs
  | _, _ => false

end

instance : BEq PyVal := ⟨PyVal.beq⟩

mutual

def PyVal.beq_refl : (a : PyVal) → PyVal.beq a a = true
  | .vnone => rfl
  | .vbool b => by simp [PyVal.beq]
  | .vint n => by simp [PyVal.beq]
  | .vrat q => by simp [PyVal.beq]
  | .vstr s => by simp [PyVal.beq]
  | .vlist xs => by simp [PyVal.beq]; exact PyVal.beqList_refl xs
  | .vdict kvs => by simp [PyVal.beq]; exact PyVal.beqKvs_refl kvs

def PyVal.beqList_refl : (l : List PyVal) → PyVal.beqList l l = true
  | [] => rfl
  | a :: as => by simp [PyVal.beqList]; exact ⟨PyVal.beq_refl a, PyVal.beqList_refl as⟩

def PyVal.beqKvs_refl : (l : List (String × PyVal)) → PyVal.beqKvs l l = true
  | [] => rfl
  | (k, v) :: as => by
      simp [PyVal.beqKvs]; exact ⟨PyVal.beq_refl v, PyVal.beqKvs_refl as⟩

end

mutual

def PyVal.eq_of_beq : {a b : PyVal} → PyVal.beq a b = true → a = b
  | .vnone, .vnone, _ => rfl
  | .vbool a, .vbool b, h => by simp [PyVal.beq] at h; simp [h]
  | .vint a, .vint b, h => by simp [PyVal.beq] at h; simp [h]
  | .vrat a, .vrat b, h => by simp [PyVal.beq] at h; simp [h]
  | .vstr a, .vstr b, h => by simp [PyVal.beq] at h; simp [h]
  | .vlist a, .vlist b, h => by
      simp [PyVal.beq] at h; simp [PyVal.eqList_of_beq h]
  | .vdict a, .vdict b, h => by
      simp [PyVal.beq] at h; simp [PyVal.eqKvs_of_beq h]

def PyVal.eqList_of_beq : {a b : List PyVal} → PyVal.beqList a b = true → a = b
  | [], [], _ => rfl
  | x :: xs, y :: ys, h => by
      simp [PyVal.beqList] at h
      simp [PyVal.eq_of_beq h.1, PyVal.eqList_of_beq h.2]

def PyVal.eqKvs_of_beq : {a b : List (String × PyVal)} →
    PyVal.beqKvs a b = true → a = b
  | [], [], _ => rfl
  | (ka, va) :: xs, (kb, vb) :: ys, h => by
      simp [PyVal.beqKvs] at h
      simp [h.1.1, PyVal.eq_of_beq h.1.2, PyVal.eqKvs_of_beq h.2]

end

instance : DecidableEq PyVal := fun a b =>
  if h : PyVal.beq a b = true then
    .isTrue (PyVal.eq_of_beq h)
  else
    .isFalse (fun he => h (he ▸ PyVal.beq_refl a))

/-- Python truthiness (`bool(v)`): `None`, `False`, `0`, `0.0`, `""`, `[]`,
and the empty dict are falsy; everything else is truthy. -/
def PyVal.truthy : PyVal → Bool
  | .vnone => false
  | .vbool b => b
  | .vint n => decide (n ≠ 0)
  | .vrat q => decide (q ≠ 0)
  | .vstr s => decide (s ≠ "")
  | .vlist xs => !xs.isEmpty
  | .vdict kvs => !kvs.isEmpty

/-- `d.get(k)` on a dict represented as an insertion-ordered key/value
list: the value at the first occurrence of `k`, if any. -/
def dictGet (kvs : List (String × PyVal)) (k : String) : Option PyVal :=
  (kvs.find? (fun kv => kv.1 == k)).map (fun kv => kv.2)

/-- `d.get(k)` with the Python default `None`. -/
def pyGet (kvs : List (String × PyVal)) (k : String) : PyVal :=
  (dictGet kvs k).getD .vnone

/-- `d.get(k, default)`. -/
def pyGetD (kvs : List (String × PyVal)) (k : String) (default : PyVal) : PyVal :=
  (dictGet kvs k).getD default

/-- Truthiness of `d.get(k)` (Python `if d.get(k):`). -/
def dictTruthy (kvs : List (String × PyVal)) (k : String) : Bool :=
  (pyGet kvs k).truthy

/-- Python dict assignment `d[k] = v`: updates the value in place if the key
exists (keeping its position in the insertion order), else appends. -/
def dictSet (kvs : List (String × PyVal)) (k : String) (v : PyVal) :
    List (String × PyVal) :=
  if kvs.any (fun kv => kv.1 == k) then
    kvs.map (fun kv => if kv.1 == k then (k, v) else kv)
  else
    kvs ++ [(k, v)]

/-- Python `d.pop(k, None)`: the popped value (defaulting to `None`) and the
dict without the first binding of `k`. -/
def dictPop (kvs : List (String × PyVal)) (k : String) : PyVal × List (String × PyVal) :=
  match dictGet kvs k with
  | some v => (v, kvs.filter (fun kv => kv.1 != k))
  | none => (.vnone, kvs)

/-- Python `{**a, **b}`: keys of `a` in order (values of `b` winning),
followed by the keys of `b` not in `a`. -/
def dictMerge (a b : List (String × PyVal)) : List (String × PyVal) :=
  (a.map (fun kv => match dictGet b kv.1 with
    | some v => (kv.1, v)
    | none => kv)) ++ b.filter (fun kv => !a.any (fun kv2 => kv2.1 == kv.1))

/-- `d.setdefault(k, v)`: insert `k ↦ v` only when `k` is absent. -/
def dictSetdefault (kvs : List (String × PyVal)) (k : String) (v : PyVal) :
    List (String × PyVal) :=
  if kvs.any (fun kv => kv.1 == k) then kvs else kvs ++ [(k, v)]

mutual

/-- Python `repr` of an embedded value (used when values are nested inside
containers that get stringified). -/
def pyRepr : PyVal → String
  | .vnone => "None"
  | .vbool b => if b then "True" else "False"
  | .vint n => toString n
  | .vrat q => toString q
  | .vstr s => "\x27" ++ s ++ "\x27"
  | .vlist xs => "[" ++ String.intercalate ", " (pyReprList xs) ++ "]"
  | .vdict kvs => "\x7b" ++ String.intercalate ", " (pyReprKvs kvs) ++ "\x7d"

def pyReprList : List PyVal → List String
  | [] => []
  | x :: xs => pyRepr x :: pyReprList xs

def pyReprKvs : List (String × PyVal) → List String
  | [] => []
  | (k, v) :: kvs => ("\x27" ++ k ++ "\x27: " ++ pyRepr v) :: pyReprKvs kvs

end

/-- Python `str(v)` (as used by f-string interpolation): identity on
strings, `repr`-like elsewhere. -/
def pyStr : PyVal → String
  | .vstr s => s
  | v => pyRepr v

/-- Python `needle in hay` on strings: substring containment. -/
def isSubstring (needle hay : String) : Bool :=
  go hay.data
where
  go : List Char → Bool
    | [] => needle.data.isPrefixOf []
    | l@(_ :: rest) => needle.data.isPrefixOf l || go rest

/-- Python `s[n:]` for a nonnegative index (the only case reached). -/
def strDrop (s : String) (n : Nat) : String := (s.data.drop n).asString

/-- Python `s[:n]` for a nonnegative index. -/
def strTake (s : String) (n : Nat) : String := (s.data.take n).asString

/-- Python `s[-n:]`: the last `n` characters (the whole string when shorter). -/
def strLast (s : String) (n : Nat) : String := strDrop s (s.length - n)

/-- Python `\s` = `[ \t\n\r\f\v]` and the whitespace set of `str.strip`. -/
def isPySpace (c : Char) : Bool :=
  c == ' ' || c == '\t' || c == '\n' || c == '\r' || c == '\x0b' || c == '\x0c'

/-- `str.lower()` (character-wise; ASCII suffices for this code base). -/
def strLower (s : String) : String := (s.data.map Char.toLower).asString

/-- `str.strip()` / `str.rstrip()` / helper.  Implemented structurally over
`List Char` (the core `String` versions are compiled by well-founded
recursion and do not evaluate inside proofs). -/
def strTrimRight (s : String) : String :=
  ((s.data.reverse.dropWhile isPySpace).reverse).asString

def strTrimLeft (s : String) : String := (s.data.dropWhile isPySpace).asString

def strTrim (s : String) : String := strTrimLeft (strTrimRight s)

/-- Python `str.replace(pat, rep)`: all non-overlapping occurrences, left
to right.  An empty pattern (which Python treats as matching between every
character) never occurs in this code base and returns `s` unchanged.
Structurally recursive on fuel (each step consumes at least one input
character, so `s.length + 1` is never exhausted). -/
def strReplace (s pat rep : String) : String :=
  if pat.data.isEmpty then s else (go (s.length + 1) s.data).asString
where
  go : Nat → List Char → List Char
    | 0, l => l
    | _ + 1, [] => []
    | fuel + 1, c :: rest =>
      if pat.data.isPrefixOf (c :: rest) then
        rep.data ++ go fuel ((c :: rest).drop (max pat.length 1))
      else c :: go fuel rest

/-- Python `str.split(sep)` for a one-character separator. -/
def strSplitOnChar (s : String) (sep : Char) : List String :=
  go s.data []
where
  go : List Char → List Char → List String
    | [], acc => [acc.reverse.asString]
    | c :: rest, acc =>
      if c == sep then acc.reverse.asString :: go rest []
      else go rest (c :: acc)

/-- `int(s)` on a digit run (`str.isdigit` shape); `none` otherwise. -/
def strToNat? (s : String) : Option Nat :=
  if s.data ≠ [] && s.data.all Char.isDigit then
    some (s.data.foldl (fun n c => n * 10 + (c.toNat - '0'.toNat)) 0)
  else none

/-! ### A tiny backtracking regex engine

`app/guardrails/security_guard.py` and `app/agent/intent.py` use Python
`re` with a handful of fixed patterns.  We embed exactly those patterns with
a backtracking matcher over `List Char`.  A matcher state is the previously
consumed character (needed for the `\b` word-boundary assertion) together
with the remaining input; a matcher returns the list of possible successor
states in the engine's preference order (alternation left first, greedy
quantifiers longest first), so the head of the list is the match Python's
engine picks. -/

/-- Matcher state: previously consumed character and remaining input. -/
abbrev RxSt := Option Char × List Char

/-- Python `\w` (ASCII range, which covers all inputs in this development). -/
def isWordChar (c : Char) : Bool := c.isAlphanum || c == '_'

/-- Python `\s`: `[ \t\n\r\f\v]`. -/
def isSpaceChar (c : Char) : Bool :=
  c == ' ' || c == '\t' || c == '\n' || c == '\r' || c == '\x0b' || c == '\x0c'

/-- Match a single character satisfying `p`. -/
def rxChar (p : Char → Bool) : RxSt → List RxSt
  | (_, []) => []
  | (_, c :: rest) => if p c then [(some c, rest)] else []

/-- The `\b` word-boundary assertion (consumes nothing). -/
def rxBound : RxSt → List RxSt
  | st =>
    let pw := match st.1 with | some c => isWordChar c | none => false
    let nw := match st.2 with | c :: _ => isWordChar c | [] => false
    if pw != nw then [st] else []

/-- Sequencing of matchers. -/
def rxSeq (f g : RxSt → List RxSt) (st : RxSt) : List RxSt :=
  (f st).flatMap g

/-- Alternation (left branch preferred, as in Python). -/
def rxAlt (f g : RxSt → List RxSt) (st : RxSt) : List RxSt := f st ++ g st

/-- Greedy `?`: try to match first, fall back to the empty match. -/
def rxOpt (f : RxSt → List RxSt) (st : RxSt) : List RxSt := f st ++ [st]

/-- Exactly `n` repetitions. -/
def rxCount (f : RxSt → List RxSt) : Nat → RxSt → List RxSt
  | 0, st => [st]
  | n + 1, st => (f st).flatMap (rxCount f n)

/-- Greedy `{lo,hi}`: `hi` repetitions preferred down to `lo`. -/
def rxRep (f : RxSt → List RxSt) (lo hi : Nat) (st : RxSt) : List RxSt :=
  ((List.range (hi + 1 - lo)).map (fun k => hi - k)).flatMap (fun n => rxCount f n st)

/-- Greedy `+` on a character class (`hi` bounded by the remaining input). -/
def rxPlus (p : Char → Bool) (st : RxSt) : List RxSt :=
  rxRep (rxChar p) 1 st.2.length st

/-- Greedy `{lo,}` on a character class. -/
def rxAtLeast (p : Char → Bool) (lo : Nat) (st : RxSt) : List RxSt :=
  rxRep (rxChar p) lo st.2.length st

/-- `re.match(pattern, s)` truthiness: the pattern matches some prefix. -/
def rxMatch (f : RxSt → List RxSt) (s : String) : Bool :=
  !(f (none, s.data)).isEmpty

/-- Scan for non-overlapping leftmost matches (the shared engine behind
`re.finditer` and `re.findall`): returns `(start, stop, matched)` triples
in character positions.  Structurally recursive on a fuel argument so the
scan evaluates inside the kernel; every step consumes at least one input
character, so the wrapper's `l.length + 1` fuel is never exhausted. -/
def rxScanF (f : RxSt → List RxSt) :
    Nat → Option Char → List Char → Nat → List (Nat × Nat × String)
  | 0, _, _, _ => []
  | fuel + 1, prev, l, pos =>
    match f (prev, l) with
    | (prev', rem) :: _ =>
      if l.length - rem.length = 0 then
        match l with
        | [] => []
        | c :: rest => rxScanF f fuel (some c) rest (pos + 1)
      else
        (pos, pos + (l.length - rem.length), ((l.take (l.length - rem.length)).asString)) ::
          rxScanF f fuel prev' rem (pos + (l.length - rem.length))
    | [] =>
      match l with
      | [] => []
      | c :: rest => rxScanF f fuel (some c) rest (pos + 1)

def rxScan (f : RxSt → List RxSt) (prev : Option Char) (l : List Char) (pos : Nat) :
    List (Nat × Nat × String) :=
  rxScanF f (l.length + 1) prev l pos

/-- `re.findall(pattern, s)` for the group-free patterns of the guard. -/
def rxFindAll (f : RxSt → List RxSt) (s : String) : List String :=
  (rxScan f none s.data 0).map (fun r => r.2.2)

/-- `re.finditer(pattern, s)` reduced to the spans `(m.start(), m.end())`. -/
def rxFindSpans (f : RxSt → List RxSt) (s : String) : List (Nat × Nat) :=
  (rxScan f none s.data 0).map (fun r => (r.1, r.2.1))

/-! ### The three PII patterns of `SecurityGuard.pii_patterns` -/

/-- `[-.\s]` separator class of the MOBILE pattern. -/
def isSepChar (c : Char) : Bool := c == '-' || c == '.' || isSpaceChar c

/-- Local-part class `[a-zA-Z0-9._%+-]` of the EMAIL pattern. -/
def isEmailLocalChar (c : Char) : Bool :=
  c.isAlphanum || c == '.' || c == '_' || c == '%' || c == '+' || c == '-'

/-- Domain class `[a-zA-Z0-9.-]` of the EMAIL pattern. -/
def isEmailDomainChar (c : Char) : Bool := c.isAlphanum || c == '.' || c == '-'

/-- Hex-digit class `[A-Fa-f0-9]` of the IPADDR pattern. -/
def isHexChar (c : Char) : Bool :=
  c.isDigit || (decide ('A' ≤ c) && decide (c ≤ 'F')) || (decide ('a' ≤ c) && decide (c ≤ 'f'))

/-- `EMAIL`: `[a-zA-Z0-9._%+-]+@[a-zA-Z0-9.-]+\.[a-zA-Z]{2,}`. -/
def rxEmail : RxSt → List RxSt :=
  rxSeq (rxPlus isEmailLocalChar)
    (rxSeq (rxChar (· == '@'))
      (rxSeq (rxPlus isEmailDomainChar)
        (rxSeq (rxChar (· == '.')) (rxAtLeast Char.isAlpha 2))))

/-- `MOBILE`: `\b(?:\+?\d{1,3}[-.\s]?)?\d{3,4}[-.\s]?\d{4}\b`. -/
def rxMobile : RxSt → List RxSt :=
  rxSeq rxBound
    (rxSeq (rxOpt (rxSeq (rxOpt (rxChar (· == '+')))
        (rxSeq (rxRep (rxChar Char.isDigit) 1 3) (rxOpt (rxChar isSepChar)))))
      (rxSeq (rxRep (rxChar Char.isDigit) 3 4)
        (rxSeq (rxOpt (rxChar isSepChar))
          (rxSeq (rxCount (rxChar Char.isDigit) 4) rxBound))))

/-- `IPADDR`: `\b(?:\d{1,3}\.){3}\d{1,3}\b|\b(?:[A-Fa-f0-9]{0,4}:){2,7}[A-Fa-f0-9]{0,4}\b`. -/
def rxIpaddr : RxSt → List RxSt :=
  rxAlt
    (rxSeq rxBound
      (rxSeq (rxCount (rxSeq (rxRep (rxChar Char.isDigit) 1 3) (rxChar (· == '.'))) 3)
        (rxSeq (rxRep (rxChar Char.isDigit) 1 3) rxBound)))
    (rxSeq rxBound
      (rxSeq (rxRep (rxSeq (rxRep (rxChar isHexChar) 0 4) (rxChar (· == ':'))) 2 7)
        (rxSeq (rxRep (rxChar isHexChar) 0 4) rxBound)))

/-- Keys of `SecurityGuard.pii_patterns` in dict insertion order. -/
inductive PiiType where
  | EMAIL | MOBILE | IPADDR
deriving Repr, DecidableEq

def PiiType.rx : PiiType → (RxSt → List RxSt)
  | .EMAIL => rxEmail
  | .MOBILE => rxMobile
  | .IPADDR => rxIpaddr

def PiiType.name : PiiType → String
  | .EMAIL => "EMAIL"
  | .MOBILE => "MOBILE"
  | .IPADDR => "IPADDR"

/-- Iteration order of `self.pii_patterns.items()`. -/
def piiOrder : List PiiType := [.EMAIL, .MOBILE, .IPADDR]

/-! ### `SecurityGuard` (`app/guardrails/security_guard.py`) -/

/-- `SecurityGuard.blocked_keywords`. -/
def blockedKeywords : List String :=
  ["terrorism", "bomb", "kill", "suicide", "child abuse",
   "sex", "porn", "hate speech", "racism", "violence", "drugs"]

/-- The mutable state of a `SecurityGuard`: `self.mask_map`, a dict from
mask token to the original PII text, in insertion order. -/
structure GuardSt where
  mask_map : List (String × String)
deriving Repr, DecidableEq

/-- Return value of `SecurityGuard.inbound` / `SecurityGuard.outbound`. -/
structure GuardReply where
  safe : Bool
  text : String
  reason : Option String
deriving Repr, DecidableEq

/-- The inner replacement loop of `SecurityGuard.inbound` for one pattern:
walks the spans found by `re.finditer` on the pass's input snapshot,
replacing each span (shifted by the running `offset`) with a fresh mask
token and recording the token in the mask map.  `offset` is an integer
because mask tokens may be shorter than what they replace. -/
def maskLoop (ptype : String) : List (Nat × Nat) → Int → Nat → String →
    List (String × String) → String × Nat × List (String × String)
  | [], _, idx, text, mm => (text, idx, mm)
  | (s, e) :: rest, offset, idx, text, mm =>
    let start := ((s : Int) + offset).toNat
    let stop := ((e : Int) + offset).toNat
    let original := ((text.data.drop start).take (stop - start)).asString
    let token := "[" ++ ptype ++ "_" ++ toString idx ++ "]"
    let text' := (text.data.take start).asString ++ token ++ (text.data.drop stop).asString
    maskLoop ptype rest (offset + (token.length : Int) - (original.length : Int))
      (idx + 1) text' (mm ++ [(token, original)])

/-- `SecurityGuard.inbound`: block unsafe queries, else clear the mask map
and mask every PII entity found by the three patterns (EMAIL, MOBILE,
IPADDR passes in that order, each pass running `finditer` on the text as
already masked by the previous passes), assigning sequential indices. -/
def SecurityGuard.inbound (g : GuardSt) (text : String) : GuardReply × GuardSt :=
  let lowered := strLower text
  if blockedKeywords.any (fun bad => isSubstring bad lowered) then
    ({ safe := false, text := "sorry, I cannot answer this question",
       reason := some "unsafe_input" }, g)
  else
    let step := fun (acc : String × Nat × List (String × String)) (pt : PiiType) =>
      let spans := rxFindSpans pt.rx acc.1
      maskLoop pt.name spans 0 acc.2.1 acc.1 acc.2.2
    let r := piiOrder.foldl step (text, 1, [])
    ({ safe := true, text := r.1, reason := none }, { mask_map := r.2.2 })

/-- `SecurityGuard._sanitize_pii_output`: replace each collected PII string
according to the first of its patterns that `re.match`es it (MOBILE, then
EMAIL, then IPADDR, then a generic token). -/
def sanitizePiiOutput (text : String) (piiList : List String) : String :=
  piiList.foldl
    (fun t pii =>
      if rxMatch rxMobile pii then
        strReplace t pii (strTake pii 3 ++ "****" ++ strLast pii 2)
      else if rxMatch rxEmail pii then
        let parts := strSplitOnChar pii '@'
        let name := parts.headD ""
        let domain := String.intercalate "@" parts.tail
        strReplace t pii (strTake name 1 ++ "***@" ++ domain)
      else if rxMatch rxIpaddr pii then
        strReplace t pii "[REDACTED_IP]"
      else
        strReplace t pii "[REDACTED]")
    text

/-- `SecurityGuard.outbound`: block unsafe output; collect new PII via
`re.findall` over the three patterns; sanitize it; finally replace every
mask token recorded at inbound time by its original text.  The mask map is
not modified here (the orchestrator clears it in `_secure_outbound`). -/
def SecurityGuard.outbound (g : GuardSt) (text : String) : GuardReply :=
  let lowered := strLower text
  if blockedKeywords.any (fun bad => isSubstring bad lowered) then
    { safe := false, text := "sorry, I cannot answer this question",
      reason := some "unsafe_output" }
  else
    let piiFound := piiOrder.flatMap (fun pt => rxFindAll pt.rx text)
    let text1 := if !piiFound.isEmpty then sanitizePiiOutput text piiFound else text
    let text2 := g.mask_map.foldl (fun t mo => strReplace t mo.1 mo.2) text1
    { safe := true, text := text2, reason := none }

/-! ### `Agent._secure_inbound` / `Agent._secure_outbound`
(`app/agent/core.py`, lines 67–109) -/

/-- `Agent._secure_inbound`: on unsafe input, returns the blocked answer
dict; otherwise the masked input text.  (The Python function returns a dict
in the first case and a string in the second; `Sum` reflects that.) -/
def agentSecureInbound (g : GuardSt) (text : String) :
    (PyVal ⊕ String) × GuardSt :=
  let (check, g') := SecurityGuard.inbound g text
  if !check.safe then
    (.inl (.vdict
      [("type", .vstr "answer"),
       ("answer", .vstr check.text),
       ("secure_mode", .vbool true),
       ("masked_input", .vnone),
       ("intents", .vlist []),
       ("steps", .vlist []),
       ("used_tools", .vlist []),
       ("citations", .vlist [])]), g')
  else
    (.inr check.text, g')

/-- `Agent._secure_outbound`.  Note the loop
`for original, mask in self.guard.mask_map.items()`: the dict maps mask
token → original, so the loop variable `original` is bound to the mask
token and `mask` to the original text; `answer.replace(mask, original)`
therefore replaces occurrences of the *original PII* by its *mask token*
(re-masking), and the actual unmasking happens at the end of
`SecurityGuard.outbound`.  Afterwards the mask map is cleared. -/
def agentSecureOutbound (g : GuardSt) (result : List (String × PyVal)) :
    List (String × PyVal) × GuardSt :=
  if (dictGet result "answer").isNone then
    (result, g)
  else
    let answer := pyStr (pyGet result "answer")
    let answer :=
      if !g.mask_map.isEmpty then
        g.mask_map.foldl (fun a om => strReplace a om.2 om.1) answer
      else answer
    let reply := SecurityGuard.outbound g answer
    let result := dictSet result "answer" (.vstr reply.text)
    let result := dictSet result "secure_mode" (.vbool true)
    (result, { mask_map := [] })

/-! ### `ToolRegistry` (`app/agent/toolkit.py`) -/

/-- A tool adapter, reduced to what `ToolRegistry.invoke` observes: the
callable attributes it exposes, each mapping keyword arguments to either a
raised exception (`.error` with `str(e)`) or a returned value. -/
structure ToolAdapter where
  methods : List (String × (List (String × PyVal) → Except String PyVal))

/-- `self.tools`: tool name → adapter. -/
abbrev ToolRegistry := List (String × ToolAdapter)

/-- The conventional method names tried by `ToolRegistry.invoke`. -/
def conventionalMethods : List String :=
  ["run", "query", "current", "execute", "search", "invoke"]

/-- The attribute name looked up for a truthy `method` override.  Python
attribute names are strings; `hasattr` would raise `TypeError` on any other
truthy value, which we model as a name that never resolves. -/
def overrideName : PyVal → String
  | .vstr s => s
  | v => pyStr v

/-- Candidate method list: the truthy override first, then the conventional
names not already listed. -/
def candidateMethods (overrideVal : PyVal) : List String :=
  let cands := if overrideVal.truthy then [overrideName overrideVal] else []
  cands ++ conventionalMethods.filter (fun n => !cands.contains n)

/-- First candidate exposed by the adapter, if any. -/
def ToolAdapter.resolve (tool : ToolAdapter) (cands : List String) :
    Option (List (String × PyVal) → Except String PyVal) :=
  cands.findSome? (fun c => (tool.methods.find? (fun m => m.1 == c)).map (fun m => m.2))

/-- The result-normalisation block of `ToolRegistry.invoke` (lines 94–107):
dict passthrough, list → `results`, string → `text`, any other value →
`result`; a raised exception → `error`. -/
def normalizeToolResult : Except String PyVal → PyVal
  | .error e => .vdict [("error", .vstr e)]
  | .ok (.vdict d) => .vdict d
  | .ok (.vlist l) => .vdict [("results", .vlist l)]
  | .ok (.vstr s) => .vdict [("text", .vstr s)]
  | .ok v => .vdict [("result", v)]

/-- The `"tool.method"` prefix extraction of `ToolRegistry.invoke`
(lines 60–63). -/
def invokeToolName (toolName : String) : String :=
  if isSubstring "." toolName then (strSplitOnChar toolName '.').headD toolName
  else toolName

/-- The keyword-argument preparation of `ToolRegistry.invoke`
(lines 72–76): pop `method` and `params`, and merge a dict `params` payload
under the remaining arguments. -/
def invokeCallKwargs (kwargs : List (String × PyVal)) : List (String × PyVal) :=
  let p2 := dictPop (dictPop kwargs "method").2 "params"
  match p2.1 with
  | .vdict p => dictMerge p p2.2
  | _ => p2.2

/-- `ToolRegistry.invoke` (lines 58–107). -/
def ToolRegistry.invoke (reg : ToolRegistry) (toolName : String)
    (kwargs : List (String × PyVal)) : PyVal :=
  let tn := invokeToolName toolName
  match reg.find? (fun t => t.1 == tn) with
  | none => .vdict [("error", .vstr ("Unknown tool: " ++ tn))]
  | some (_, tool) =>
    match tool.resolve (candidateMethods (dictPop kwargs "method").1) with
    | none =>
      .vdict [("error", .vstr ("No callable interface found for tool \x27" ++ tn ++ "\x27"))]
    | some f => normalizeToolResult (f (invokeCallKwargs kwargs))

/-! ### `Intent` and `IntentRecognizer` (`app/agent/intent.py`) -/

/-- The `Intent` dataclass.  (`core.py` reads a `memory_hint` attribute via
`getattr(intent, "memory_hint", False)`; the dataclass has no such field and
nothing in the repository sets it, so the orchestrator embedding carries it
explicitly with default `false`.) -/
structure Intent where
  name : String
  slots : List (String × PyVal)
  confidence : ℚ
  priority : Int := 0
  needs_confirmation : Bool := false
  clarification_prompt : Option String := none
  memory_hint : Bool := false
deriving Repr, DecidableEq

/-- `dataclasses.asdict` on an `Intent` (field declaration order). -/
def Intent.toPy (i : Intent) : PyVal :=
  .vdict [("name", .vstr i.name), ("slots", .vdict i.slots),
          ("confidence", .vrat i.confidence), ("priority", .vint i.priority),
          ("needs_confirmation", .vbool i.needs_confirmation),
          ("clarification_prompt",
            match i.clarification_prompt with | none => .vnone | some s => .vstr s)]

/-- `IntentRecognizer.min_confidence`. -/
def minConfidence : ℚ := 1 / 2

/-- The capturing search `re.search(r'\b(?:in|at)\s+([A-Z][a-z]+)', text)`
of `_fallback_recognition`, specialised: returns group 1 of the leftmost
match. -/
def searchLocation (text : String) : Option String :=
  go none text.data
where
  tryAt (prev : Option Char) (l : List Char) : Option String :=
    let bound := match prev with | some c => !isWordChar c | none => true
    if !bound then none
    else
      let afterKw : Option (List Char) :=
        match l with
        | 'i' :: 'n' :: rest => some rest
        | 'a' :: 't' :: rest => some rest
        | _ => none
      match afterKw with
      | none => none
      | some rest =>
        let spaces := rest.takeWhile isSpaceChar
        if spaces.isEmpty then none
        else
          match rest.drop spaces.length with
          | c :: cs =>
            if c.isUpper then
              let lows := cs.takeWhile Char.isLower
              if lows.isEmpty then none else some (c :: lows).asString
            else none
          | [] => none
  go : Option Char → List Char → Option String
    | _, [] => none
    | prev, l@(c :: rest) =>
      match tryAt prev l with
      | some g => some g
      | none => go (some c) rest

/-- `re.findall(r'\d+', text)`: maximal digit runs, left to right.  The
first argument of `go` is the reversed digit run currently being read. -/
def findAllDigitRuns (text : String) : List String :=
  go [] text.data
where
  go : List Char → List Char → List String
    | run, [] => if run.isEmpty then [] else [run.reverse.asString]
    | run, c :: rest =>
      if c.isDigit then go (c :: run) rest
      else if run.isEmpty then go [] rest
      else run.reverse.asString :: go [] rest

/-- `IntentRecognizer._fallback_recognition`: deterministic keyword-based
classification with fixed priority order. -/
def fallbackRecognition (text : String) : List Intent :=
  let textLower := strLower text
  if ["weather", "天气", "temperature", "forecast", "预报"].any
      (fun kw => isSubstring kw textLower) then
    let location := (searchLocation text).getD "Singapore"
    let daysOffset : Int :=
      if isSubstring "tomorrow" textLower || isSubstring "明天" textLower then 1
      else if isSubstring "yesterday" textLower || isSubstring "昨天" textLower then -1
      else 0
    [{ name := "get_weather",
       slots := [("location", .vstr location), ("days_offset", .vint daysOffset)],
       confidence := 4/5 }]
  else if ["email", "邮件", "gmail", "inbox", "收件箱", "summarize"].any
      (fun kw => isSubstring kw textLower) then
    let numbers := findAllDigitRuns text
    let count : Int := match numbers with
      | [] => 5
      | n :: _ => ((strToNat? n).getD 0 : Int)
    [{ name := "summarize_emails", slots := [("count", .vint count)],
       confidence := 3/4, priority := 0 }]
  else if ["what did i ask", "previous chat", "之前问过", "之前说", "history",
           "conversation before"].any (fun kw => isSubstring kw textLower) then
    [{ name := "recall_conversation", slots := [("query", .vstr text)],
       confidence := 4/5, priority := 0 }]
  else if ["explain", "what", "how", "why", "tell me", "解释", "什么是", "怎么",
           "为什么"].any (fun kw => isSubstring kw textLower) then
    [{ name := "general_qa", slots := [("query", .vstr text)],
       confidence := 3/4, priority := 0 }]
  else if ["search", "find", "查找", "搜索"].any (fun kw => isSubstring kw textLower) then
    [{ name := "query_knowledge", slots := [("query", .vstr text)],
       confidence := 7/10, priority := 0 }]
  else
    [{ name := "general_qa", slots := [("query", .vstr text)],
       confidence := 3/5, priority := 0 }]

/-- Python `float(v)` on an embedded value: `None` for the raising cases
(`TypeError`/`ValueError`).  Numeric-string parsing covers plain decimal
literals (the forms reachable from JSON-ish classifier output); exotic
accepted forms (exponents, `inf`, underscores) are not modelled. -/
def parseDecimal? (s : String) : Option ℚ :=
  let t := strTrim s
  let su : ℚ × String :=
    if "-".data.isPrefixOf t.data then (-1, strDrop t 1)
    else if "+".data.isPrefixOf t.data then (1, strDrop t 1)
    else (1, t)
  match strSplitOnChar su.2 '.' with
  | [a] =>
    if a ≠ "" && a.data.all Char.isDigit then some (su.1 * (((strToNat? a).getD 0 : Nat) : ℚ))
    else none
  | [a, b] =>
    if (a ≠ "" || b ≠ "") && a.data.all Char.isDigit && b.data.all Char.isDigit then
      some (su.1 * ((((strToNat? a).getD 0 : Nat) : ℚ) + (((strToNat? b).getD 0 : Nat) : ℚ) / (10 : ℚ) ^ b.length))
    else none
  | _ => none

def pyFloat? : PyVal → Option ℚ
  | .vint n => some (n : ℚ)
  | .vrat q => some q
  | .vbool b => some (if b then 1 else 0)
  | .vstr s => parseDecimal? s
  | _ => none

/-- Confidence extraction for one intent entry (`float(intent_data.get(
"confidence", 0.75))` with `TypeError`/`ValueError` defaulting to 0.75). -/
def entryConfidence (entry : List (String × PyVal)) : ℚ :=
  match dictGet entry "confidence" with
  | none => 3/4
  | some v => (pyFloat? v).getD (3/4)

/-- `Intent(...)` construction from one well-formed entry.  Non-string
names, non-dict slots and non-int priorities never occur in the
repository's own flows; they are coerced (with `pyStr`, `[]`, `0`). -/
def intentOfEntry (entry : List (String × PyVal)) (conf : ℚ) : Intent :=
  { name := match dictGet entry "name" with
      | some (.vstr s) => s
      | some .vnone => "unknown"
      | some v => pyStr v
      | none => "unknown"
    slots := match dictGet entry "slots" with
      | some (.vdict d) => d
      | _ => []
    confidence := conf
    priority := match dictGet entry "priority" with
      | some (.vint n) => n
      | _ => 0 }

/-- The clarification dicts that intent recognition can produce. -/
inductive ClarKind where
  | lowConf (c : ℚ)
  | ambiguous
  | notSure
  | recogError
deriving Repr, DecidableEq

/-- `f"{confidence:.2f}"`, on the exact rational embedding of the float
(round half to even, as float formatting does on exact halves). -/
def formatConf2 (c : ℚ) : String :=
  let scaled : ℚ := c * 100
  let fl : Int := scaled.floor
  let frac : ℚ := scaled - fl
  let r : Int :=
    if frac > 1/2 then fl + 1
    else if frac < 1/2 then fl
    else if fl % 2 = 0 then fl else fl + 1
  let sign := if r < 0 then "-" else ""
  let a := r.natAbs
  sign ++ toString (a / 100) ++ "." ++ (if a % 100 < 10 then "0" else "") ++ toString (a % 100)

/-- The literal clarification dicts (from `intent.py` lines 129–136 and
149–156, and `core.py` lines 320–332). -/
def ClarKind.toPy : ClarKind → PyVal
  | .lowConf c => .vdict
      [("type", .vstr "clarification"),
       ("message", .vstr ("Intent confidence too low (" ++ formatConf2 c ++
         "). Please clarify your goal.")),
       ("options", .vlist [.vstr "Weather", .vstr "Emails", .vstr "Knowledge search"]),
       ("intents", .vlist []),
       ("steps", .vlist [])]
  | .ambiguous => .vdict
      [("type", .vstr "clarification"),
       ("message", .vstr "Your request seems ambiguous. Please clarify:"),
       ("options", .vlist [.vstr "Check weather", .vstr "Summarize emails",
         .vstr "Search knowledge base"]),
       ("intents", .vlist []),
       ("steps", .vlist [])]
  | .notSure => .vdict
      [("type", .vstr "clarification"),
       ("message", .vstr "I’m not sure what you mean. Please clarify:"),
       ("options", .vlist [.vstr "Check weather", .vstr "Read emails",
         .vstr "Search knowledge base"])]
  | .recogError => .vdict
      [("type", .vstr "clarification"),
       ("message", .vstr "An error occurred while interpreting your request."),
       ("options", .vlist [.vstr "Retry", .vstr "Rephrase"])]

/-- Outcome of `_parse_llm_response` on successfully `json.loads`-ed data:
an intent list, a clarification, the caught-exception fallback branch, or
an uncaught exception (propagating to `recognize`'s handler). -/
inductive ParseResult where
  | intents (l : List Intent)
  | clar (k : ClarKind)
  | fallback
  | raised (msg : String)
deriving Repr

/-- The intent loop of `_parse_llm_response` (lines 123–144) followed by its
post-processing (lines 146–161).  The loop returns the low-confidence
clarification at the *first* entry whose parsed confidence is below
`min_confidence`; a non-dict entry raises `AttributeError`, which is not in
the locally caught exception tuple. -/
def parseIntentLoop (ambiguous0 : Bool) : List PyVal → List Intent → ParseResult
  | [], acc =>
    let ambiguous :=
      if ambiguous0 && !acc.isEmpty && acc.all (fun i => i.confidence ≥ minConfidence)
      then false else ambiguous0
    if ambiguous then .clar .ambiguous
    else if acc.isEmpty then .fallback
    else .intents acc
  | e :: rest, acc =>
    match e with
    | .vdict entry =>
      let conf := entryConfidence entry
      if conf < minConfidence then .clar (.lowConf conf)
      else parseIntentLoop ambiguous0 rest (acc ++ [intentOfEntry entry conf])
    | _ => .raised "AttributeError: intent entry has no attribute get"

/-- `IntentRecognizer._parse_llm_response`, from the parsed JSON value
(`data`) onward.  String-level code-fence stripping and `json.loads`
failures land in the `.fallback` branch and are handled by the caller. -/
def parseLLMResponseData (data : List (String × PyVal)) : ParseResult :=
  let ambiguous0 := dictTruthy data "ambiguous" || dictTruthy data "clarification_needed"
  match dictGet data "intents" with
  | none => parseIntentLoop ambiguous0 [] []
  | some (.vlist entries) => parseIntentLoop ambiguous0 entries []
  | some (.vstr "") => parseIntentLoop ambiguous0 [] []
  | some (.vdict []) => parseIntentLoop ambiguous0 [] []
  | some _ => .raised "TypeError or AttributeError while iterating intents"

/-- `IntentRecognizer.recognize` from parsed classifier data onward: the
uncaught-exception and fallback branches both end in
`_fallback_recognition(original text)` (the former via `recognize`'s
`except Exception`). -/
def recognizeParsed (data : List (String × PyVal)) (originalText : String) :
    (List Intent) ⊕ ClarKind :=
  match parseLLMResponseData data with
  | .intents l => .inl l
  | .clar k => .inr k
  | .fallback => .inl (fallbackRecognition originalText)
  | .raised _ => .inl (fallbackRecognition originalText)

/-! ### `Step` and `PlanTrace` (`app/agent/planning.py`) -/

/-- The `Step` dataclass.  The wall-clock `timestamp` field (a default
factory reading `datetime.utcnow`) is omitted from the embedding; no
control flow reads it.  `error` holds an arbitrary embedded value because
`core.py` assigns `observation.get("error", ...)` to it. -/
structure Step where
  intent : String
  thought : String
  action : Option String := none
  input : List (String × PyVal) := []
  observation : Option PyVal := none
  status : String := "planned"
  decide_next : Bool := true
  error : Option PyVal := none
  memory_used : Bool := false
deriving Repr, DecidableEq

/-- `dataclasses.asdict` on a `Step` (field declaration order, timestamp
omitted). -/
def Step.toPy (s : Step) : PyVal :=
  .vdict [("intent", .vstr s.intent), ("thought", .vstr s.thought),
          ("action", match s.action with | none => .vnone | some a => .vstr a),
          ("input", .vdict s.input),
          ("observation", s.observation.getD .vnone),
          ("status", .vstr s.status),
          ("decide_next", .vbool s.decide_next),
          ("error", s.error.getD .vnone),
          ("memory_used", .vbool s.memory_used)]

/-- `PlanTrace.to_dict()` (the wall-clock `created_at` field is omitted). -/
def traceToPy (userQuery : String) (traceSteps : List Step) : PyVal :=
  .vdict [("user_query", .vstr userQuery),
          ("steps", .vlist (traceSteps.map Step.toPy))]

/-! ### Observation formatting and citations (`app/agent/core.py`) -/

/-- Python `l[-n:]`. -/
def listLast (l : List α) (n : Nat) : List α := l.drop (l.length - n)

mutual

/-- `json.dumps(v, ensure_ascii=False)` (up to whitespace conventions that
no theorem depends on). -/
def jsonDumps : PyVal → String
  | .vnone => "null"
  | .vbool b => if b then "true" else "false"
  | .vint n => toString n
  | .vrat q => toString q
  | .vstr s => "\"" ++ s ++ "\""
  | .vlist xs => "[" ++ String.intercalate ", " (jsonDumpsList xs) ++ "]"
  | .vdict kvs => "\x7b" ++ String.intercalate ", " (jsonDumpsKvs kvs) ++ "\x7d"

def jsonDumpsList : List PyVal → List String
  | [] => []
  | x :: xs => jsonDumps x :: jsonDumpsList xs

def jsonDumpsKvs : List (String × PyVal) → List String
  | [] => []
  | (k, v) :: kvs => ("\"" ++ k ++ "\": " ++ jsonDumps v) :: jsonDumpsKvs kvs

end

/-- The snippet of one result item in `_format_observation`:
`item.get("chunk") or item.get("text") or json.dumps(item)` for dicts,
`str(item)` otherwise, then `.strip().replace("\n", " ")` and truncation
at 200 characters. -/
def snippetOfItem (item : PyVal) : String :=
  let raw :=
    match item with
    | .vdict d =>
      let c := pyGet d "chunk"
      if c.truthy then pyStr c
      else
        let t := pyGet d "text"
        if t.truthy then pyStr t else jsonDumps item
    | v => pyStr v
  let s := strReplace (strTrim raw) "\n" " "
  if s.length > 200 then strTrimRight (strTake s 200) ++ "..." else s

/-- `Agent._format_observation`. -/
def formatObservation : PyVal → String
  | .vdict d =>
    let scope := pyGet d "scope"
    if scope == .vstr "longterm" &&
        (match dictGet d "results" with | some (.vlist _) => true | _ => false) then
      let results := match dictGet d "results" with | some (.vlist l) => l | _ => []
      if results.isEmpty then "No prior conversation found."
      else
        let lines := (results.take 3).enum.map
          (fun ia => toString (ia.1 + 1) ++ ". " ++ snippetOfItem ia.2)
        "Conversation recall:\n" ++ String.intercalate "\n" lines
    else if scope == .vstr "knowledge" && dictTruthy d "fallback_answer" then
      "Knowledge search returned no results. LLM answer: " ++ pyStr (pyGet d "fallback_answer")
    else if (dictGet d "results").isSome &&
        (match dictGet d "results" with | some (.vlist _) => true | _ => false) then
      let results := match dictGet d "results" with | some (.vlist l) => l | _ => []
      if results.isEmpty then "No relevant results found."
      else
        let lines := (results.take (min results.length 10)).enum.map (fun ia =>
          let title : Option PyVal :=
            match ia.2 with
            | .vdict rd =>
              (match dictGet rd "metadata" with
               | some (.vdict md) => dictGet md "title"
               | _ => none)
            | _ => none
          match title with
          | some t =>
            if t.truthy then
              toString (ia.1 + 1) ++ ". " ++ pyStr t ++ ": " ++ snippetOfItem ia.2
            else toString (ia.1 + 1) ++ ". " ++ snippetOfItem ia.2
          | none => toString (ia.1 + 1) ++ ". " ++ snippetOfItem ia.2)
        "Knowledge hits:\n" ++ String.intercalate "\n" lines
    else if (dictGet d "temperature").isSome then
      "Weather in " ++ pyStr (pyGetD d "location" (.vstr "")) ++ ": " ++
        pyStr (pyGet d "temperature") ++ "°C, " ++ pyStr (pyGetD d "condition" (.vstr ""))
    else pyRepr (.vdict d)
  | v => strTake (pyStr v) 300

/-- The per-result extraction of `Agent._collect_citations` (lines
671–680): a citation dict when the metadata carries a truthy filename (or
source), skipped otherwise. -/
def citationOfResult (r : PyVal) : Option PyVal :=
  match r with
  | .vdict rd =>
    let mv := pyGet rd "metadata"
    let md := if mv.truthy then mv else .vdict []
    match md with
    | .vdict m =>
      let fn0 := pyGet m "filename"
      let filename := if fn0.truthy then fn0 else pyGet m "source"
      let page := pyGet m "page"
      if filename.truthy then
        some (.vdict [("filename", filename), ("page", page)])
      else none
    | _ => none
  | _ => none

/-- The citations one `used_tools` entry contributes in
`Agent._collect_citations` (lines 661–680): nothing unless the entry is a
dict named `vdb` with a dict `outputs` and a list of results. -/
def citationsOfTool (tool : PyVal) : List PyVal :=
  match tool with
  | .vdict d =>
    let nameV := pyGet d "name"
    let nameS := strLower (if nameV.truthy then pyStr nameV else "")
    if nameS ≠ "vdb" then []
    else
      match dictGet d "outputs" with
      | some (.vdict od) =>
        let results := match pyGet od "results" with
          | .vlist l => l
          | _ => []
        results.filterMap citationOfResult
      | _ => []
  | _ => []

/-- `Agent._collect_citations`. -/
def collectCitations (usedTools : List PyVal) : List PyVal :=
  usedTools.foldl (fun acc tool => acc ++ citationsOfTool tool) []

/-- The dedup step of `Agent._append_citation_block` (lines 686–694):
first-occurrence `(filename, page)` pairs, skipping falsy filenames. -/
def citeStep (u : List (PyVal × PyVal)) (c : PyVal) : List (PyVal × PyVal) :=
  match c with
  | .vdict cd =>
    let filename := pyGet cd "filename"
    let page := pyGet cd "page"
    if !filename.truthy || u.contains (filename, page) then u
    else u ++ [(filename, page)]
  | _ => u

/-- `Agent._append_citation_block`. -/
def appendCitationBlock (answer : String) (citations : List PyVal) : String :=
  let uniq : List (PyVal × PyVal) := citations.foldl citeStep []
  if uniq.isEmpty then answer
  else
    let lines := uniq.enum.map (fun ifp =>
      let pageDisplay :=
        if ifp.2.2 == PyVal.vnone || ifp.2.2 == PyVal.vstr "" then "?" else pyStr ifp.2.2
      toString (ifp.1 + 1) ++ ". " ++ pyStr ifp.2.1 ++ ", page " ++ pageDisplay)
    strTrimRight answer ++ "\n\nSource:\n" ++ String.intercalate "\n" lines

/-- `Agent._format_fallback_answer`. -/
def formatFallbackAnswer (observations : List String) : String :=
  if observations.isEmpty then "No information available."
  else
    "Based on the gathered information:\n" ++
      String.intercalate "\n" ((listLast observations 5).map (fun obs => "- " ++ obs))

/-! ### Oracles and the `_plan_and_execute` loop (`app/agent/core.py`) -/

/-- Call counters for the oracle tapes (one per external entry point). -/
structure Counters where
  recog : Nat := 0
  planner : Nat := 0
  tool : Nat := 0
  qa : Nat := 0
  sumLLM : Nat := 0
  clock : Nat := 0
deriving Repr, DecidableEq

/-- The external world, as call-indexed result tapes:
* `recognize` – outcome of `Agent._recognize_intents` (an intent list, or
  one of the four literal clarification dicts it can produce);
* `planner` – outcome of `Agent._plan_next_step` (an `Optional[Step]`);
* `tool` – outcome of `self.tools.invoke(...)` as called from the loop
  (`.error e` models a raised exception with `str(e) = e`, covering the
  defensive `except` branch; with the repository's own registry the call
  returns a dict);
* `qa` – outcome of `Agent._direct_llm_qa` (total: it catches internally);
* `sumLLM` – the `llm.chat` call inside `Agent._summarize_result`;
* `clock` – `datetime.now().isoformat()`. -/
structure Oracles where
  recognize : Nat → (List Intent) ⊕ ClarKind
  planner : Nat → Option Step
  tool : Nat → Except String PyVal
  qa : Nat → String
  sumLLM : Nat → Except String String
  clock : Nat → String

/-- Ghost events: each iteration of the per-intent while-loop records the
0-based index of the intent being processed and the value of `round_count`
for that iteration (after the `round_count += 1` at line 369). -/
inductive Ev where
  | round (intentIdx : Nat) (roundCount : Nat)
deriving Repr, DecidableEq

def Ev.roundCount : Ev → Nat
  | .round _ rc => rc

def Ev.intentIdx : Ev → Nat
  | .round i _ => i

/-- The local state of one `_plan_and_execute` call (`steps`, `used_tools`,
`citations`, `observations`, the trace), plus the oracle counters and the
ghost round log. -/
structure PState where
  steps : List Step := []
  usedTools : List PyVal := []
  citations : List PyVal := []
  observations : List String := []
  traceSteps : List Step := []
  c : Counters := {}
  log : List Ev := []

/-- Static context of one `_plan_and_execute` call. -/
structure LoopCtx where
  maxRounds : Nat
  o : Oracles
  intents : List Intent
  userQuery : String
  userId : String
  sessionId : String

/-- `intent.slots.get("query") or user_query`. -/
def queryOfIntent (intent : Intent) (userQuery : String) : String :=
  let qv := pyGet intent.slots "query"
  if qv.truthy then pyStr qv else userQuery

/-- A `used_tools` entry. -/
def usedToolEntry (name : String) (inputs outputs : PyVal) (status : String) : PyVal :=
  .vdict [("name", .vstr name), ("inputs", inputs), ("outputs", outputs),
          ("status", .vstr status)]

/-- The tool-error clarification (`core.py` lines 419–426): the failed step
is in both `steps` and the trace. -/
def toolErrorClar (ctx : LoopCtx) (action : String) (errorMsg : PyVal) (st : PState) : PyVal :=
  .vdict [("type", .vstr "clarification"),
          ("message", .vstr ("Tool " ++ action ++ " returned an error: " ++
            pyStr errorMsg ++ ". Retry?")),
          ("options", .vlist [.vstr "Retry", .vstr "Cancel"]),
          ("steps", .vlist (st.steps.map Step.toPy)),
          ("intents", .vlist (ctx.intents.map Intent.toPy)),
          ("trace", traceToPy ctx.userQuery st.traceSteps)]

/-- The tool-exception clarification (`core.py` lines 461–468): the failed
step is recorded in the trace but *not* appended to `steps`. -/
def toolFailClar (ctx : LoopCtx) (action : String) (e : String) (st : PState) : PyVal :=
  .vdict [("type", .vstr "clarification"),
          ("message", .vstr ("Tool " ++ action ++ " failed: " ++ e ++ ". Retry?")),
          ("options", .vlist [.vstr "Retry", .vstr "Cancel"]),
          ("steps", .vlist (st.steps.map Step.toPy)),
          ("intents", .vlist (ctx.intents.map Intent.toPy)),
          ("trace", traceToPy ctx.userQuery st.traceSteps)]

/-- Outcome of one iteration of the while-loop body. -/
inductive IterOut where
  | ret (result : PyVal) (st : PState)
  | stop (st : PState)
  | next (st : PState)

/-- Python truthiness of `step.action` combined with `!= "finish"`. -/
def actionIsTool (action : Option String) : Bool :=
  match action with
  | some a => a ≠ "" && a ≠ "finish"
  | none => false

/-- The common loop tail (`core.py` lines 519–528): record the step in
trace and `steps`, then decide whether the loop is done. -/
def iterTail (step : Step) (st : PState) : IterOut :=
  let st := { st with traceSteps := st.traceSteps ++ [step],
                      steps := st.steps ++ [step] }
  let shouldContinue := if step.action == some "finish" then false else step.decide_next
  if step.status = "finished" || step.status = "failed" ||
      step.action == some "finish" || !shouldContinue then
    .stop st
  else .next st

/-- The iterable behind `max(float(result.get("score", 0.0)) ...)` in the
`potential_knowledge_qa` branch: a non-list `results` value raises inside
the enclosing `try` (empty strings/dicts iterate to nothing). -/
def resultsIterable : PyVal → Except String (List PyVal)
  | .vlist l => .ok l
  | .vstr "" => .ok []
  | .vdict [] => .ok []
  | .vstr _ => .error "AttributeError: str item has no attribute get"
  | .vdict _ => .error "AttributeError: str item has no attribute get"
  | _ => .error "TypeError: results is not iterable"

/-- `max((float(result.get("score", 0.0)) for result in results),
default=0.0)`; raises on a non-dict item or an unconvertible score. -/
def bestScoreE : List PyVal → Except String ℚ
  | [] => .ok 0
  | r :: rest =>
    match r with
    | .vdict rd =>
      match pyFloat? (pyGetD rd "score" (.vrat 0)) with
      | some q =>
        match bestScoreE rest with
        | .ok m => .ok (max q m)
        | .error e => .error e
      | none => .error "could not convert score to float"
    | _ => .error "AttributeError: result has no attribute get"

/-- The snippet join in the `potential_knowledge_qa` branch
(`"\n".join(f"- {item.get('chunk', '').strip()}" ...).strip()`); raises on
a non-string `chunk` value. -/
def ragSnippetsE (results : List PyVal) : Except String String :=
  go (results.take 3) []
where
  go : List PyVal → List String → Except String String
    | [], acc => .ok (strTrim (String.intercalate "\n" acc.reverse))
    | r :: rest, acc =>
      match r with
      | .vdict rd =>
        match pyGetD rd "chunk" (.vstr "") with
        | .vstr s => go rest (("- " ++ strTrim s) :: acc)
        | _ => .error "AttributeError: chunk has no attribute strip"
      | _ => .error "AttributeError: item has no attribute get"

/-- One iteration of the while-loop body of `_plan_and_execute`
(`core.py` lines 370–528), with `round_count` already incremented and
logged by the caller. -/
def loopIter (ctx : LoopCtx) (intent : Intent) (memoryResults : List PyVal)
    (memoryHitsOnly : Bool) (st : PState) : IterOut :=
  let step? := ctx.o.planner st.c.planner
  let st := { st with c := { st.c with planner := st.c.planner + 1 } }
  match step? with
  | none => .stop st
  | some step0 =>
    let step1 := { step0 with
      memory_used := intent.memory_hint && !memoryResults.isEmpty }
    if actionIsTool step1.action then
      let a := step1.action.getD ""
      if a = "vdb" && memoryHitsOnly && intent.name = "query_knowledge" then
        let answer := ctx.o.qa st.c.qa
        let st := { st with c := { st.c with qa := st.c.qa + 1 } }
        let step2 := { step1 with
          thought := step1.thought ++ " | Memory satisfied query; skipped VDB.",
          action := some "memory_only",
          observation := some (.vdict [("answer", .vstr answer),
            ("memory_results", .vlist memoryResults)]),
          status := "succeeded",
          decide_next := false,
          memory_used := true }
        let st := { st with observations := st.observations ++ [answer],
                            traceSteps := st.traceSteps ++ [step2],
                            steps := st.steps ++ [step2] }
        .stop st
      else
        let step2 :=
          if a = "memory" then
            { step1 with input :=
                (dictSetdefault
                  (dictSetdefault step1.input "user_id" (.vstr ctx.userId))
                  "session_id" (.vstr ctx.sessionId)) }
          else step1
        let obsE := ctx.o.tool st.c.tool
        let st := { st with c := { st.c with tool := st.c.tool + 1 } }
        match obsE with
        | .error e =>
          let stepF := { step2 with status := "failed", error := some (.vstr e) }
          let st := { st with traceSteps := st.traceSteps ++ [stepF] }
          .ret (toolFailClar ctx a e st) st
        | .ok observation =>
          let step3 := { step2 with observation := some observation }
          let obsDict := match observation with | .vdict d => some d | _ => none
          if (match obsDict with
              | some d => dictTruthy d "error"
              | none => false) then
            let d := obsDict.getD []
            let errorMsg := pyGetD d "error" (.vstr "Unknown error")
            let stepF := { step3 with status := "failed", error := some errorMsg }
            let st := { st with
              usedTools := st.usedTools ++
                [usedToolEntry a (.vdict step2.input) observation "failed"],
              traceSteps := st.traceSteps ++ [stepF],
              steps := st.steps ++ [stepF] }
            .ret (toolErrorClar ctx a errorMsg st) st
          else if a = "vdb" &&
              (match obsDict with
               | some d => !dictTruthy d "results"
               | none => false) then
            let d := obsDict.getD []
            let fallbackAnswer := ctx.o.qa st.c.qa
            let st := { st with c := { st.c with qa := st.c.qa + 1 } }
            let stepO := { step3 with
              observation := some (.vdict [("scope", .vstr "knowledge"),
                ("results", pyGetD d "results" (.vlist [])),
                ("fallback_answer", .vstr fallbackAnswer)]),
              status := "succeeded" }
            let st := { st with
              observations := st.observations ++
                ["Knowledge search returned no results about the question.",
                 fallbackAnswer],
              usedTools := st.usedTools ++
                [usedToolEntry "llm_fallback"
                  (.vdict [("query", .vstr ctx.userQuery)])
                  (.vdict [("answer", .vstr fallbackAnswer)]) "succeeded"],
              traceSteps := st.traceSteps ++ [stepO],
              steps := st.steps ++ [stepO] }
            .stop st
          else
            let stepS := { step3 with status := "succeeded" }
            let st := { st with
              observations := st.observations ++ [formatObservation observation],
              usedTools := st.usedTools ++
                [usedToolEntry a (.vdict step2.input) observation "succeeded"] }
            iterTail stepS st
    else if intent.name = "general_qa" || intent.name = "potential_knowledge_qa" then
      let query := queryOfIntent intent ctx.userQuery
      -- retrieval stage (only for potential_knowledge_qa)
      let stage :
          Option String × Bool × Option PyVal × PState :=
        if intent.name = "potential_knowledge_qa" then
          let payloadE := ctx.o.tool st.c.tool
          let st := { st with c := { st.c with tool := st.c.tool + 1 } }
          match payloadE with
          | .error e =>
            (none, false, none,
              { st with usedTools := st.usedTools ++
                [usedToolEntry "vdb"
                  (.vdict [("query", .vstr query), ("top_k", .vint 3)])
                  (.vdict [("error", .vstr e)]) "failed"] })
          | .ok payload =>
            let st := { st with usedTools := st.usedTools ++
              [usedToolEntry "vdb"
                (.vdict [("query", .vstr query), ("top_k", .vint 3)])
                payload "succeeded"] }
            let resultsVal := match payload with
              | .vdict d => pyGetD d "results" (.vlist [])
              | _ => .vlist []
            match resultsIterable resultsVal with
            | .error e =>
              (none, true, some payload,
                { st with usedTools := st.usedTools ++
                  [usedToolEntry "vdb"
                    (.vdict [("query", .vstr query), ("top_k", .vint 3)])
                    (.vdict [("error", .vstr e)]) "failed"] })
            | .ok results =>
              match bestScoreE results with
              | .error e =>
                (none, true, some payload,
                  { st with usedTools := st.usedTools ++
                    [usedToolEntry "vdb"
                      (.vdict [("query", .vstr query), ("top_k", .vint 3)])
                      (.vdict [("error", .vstr e)]) "failed"] })
              | .ok best =>
                if !results.isEmpty && best > 13/20 then
                  let st := { st with observations := st.observations ++
                    [formatObservation payload] }
                  match ragSnippetsE results with
                  | .error e =>
                    (none, true, some payload,
                      { st with usedTools := st.usedTools ++
                        [usedToolEntry "vdb"
                          (.vdict [("query", .vstr query), ("top_k", .vint 3)])
                          (.vdict [("error", .vstr e)]) "failed"] })
                  | .ok _snippets =>
                    let ra := ctx.o.qa st.c.qa
                    let st := { st with c := { st.c with qa := st.c.qa + 1 } }
                    (some ra, true, some payload, st)
                else (none, true, some payload, st)
        else (none, false, none, st)
      let st := stage.2.2.2
      -- `answer = rag_answer or self._direct_llm_qa(query, intent_context)`
      let astep : String × PState :=
        match stage.1 with
        | some ra =>
          if ra ≠ "" then (ra, st)
          else
            let ans := ctx.o.qa st.c.qa
            (ans, { st with c := { st.c with qa := st.c.qa + 1 } })
        | none =>
          let ans := ctx.o.qa st.c.qa
          (ans, { st with c := { st.c with qa := st.c.qa + 1 } })
      let answer := astep.1
      let st := astep.2
      let payloadKvs :=
        [("answer", PyVal.vstr answer)] ++
          (match stage.2.2.1 with
           | some payload =>
             if stage.2.1 && payload.truthy then [("retrieval", payload)] else []
           | none => [])
      let stepQ := { step1 with observation := some (.vdict payloadKvs),
                                status := "succeeded" }
      let st := { st with observations := st.observations ++ [answer] }
      iterTail stepQ st
    else
      iterTail step1 st

/-- Outcome of the while-loop for one intent: an early `return` from inside
the loop, or normal exit with the final `round_count`. -/
inductive LoopOut where
  | ret (result : PyVal) (st : PState)
  | done (st : PState) (roundCount : Nat)

/-- The while-loop `while not done and round_count < self.max_rounds`
(`core.py` lines 368–528).  `fuel` is `maxRounds - rc` at every call, so the
guard and the fuel run out together; each iteration logs the incremented
`round_count` as a ghost event. -/
def loopGo (ctx : LoopCtx) (intent : Intent) (idx : Nat)
    (memoryResults : List PyVal) (memoryHitsOnly : Bool) :
    Nat → Nat → PState → LoopOut
  | 0, rc, st => .done st rc
  | fuel + 1, rc, st =>
    if rc < ctx.maxRounds then
      let rc' := rc + 1
      let st' := { st with log := st.log ++ [Ev.round idx rc'] }
      match loopIter ctx intent memoryResults memoryHitsOnly st' with
      | .ret r st2 => .ret r st2
      | .stop st2 => .done st2 rc'
      | .next st2 => loopGo ctx intent idx memoryResults memoryHitsOnly fuel rc' st2
    else .done st rc

/-- The `memory_hint` block (`core.py` lines 346–366).  `Intent` has no
`memory_hint` field in the repository and nothing sets one, and moreover
`LongTermMemoryStore.search` accepts only `(query, top_k)` while the call
passes `user_id`/`session_id` keywords, so the call always raises
`TypeError` and is swallowed by the enclosing `except`: the stage never
produces results. -/
def memoryHintStage (_intent : Intent) (st : PState) :
    List PyVal × Bool × PState :=
  ([], false, st)

/-- The max-rounds terminal answer (`core.py` lines 530–540). -/
def limitAnswer (ctx : LoopCtx) (st : PState) : PyVal :=
  .vdict [("type", .vstr "answer"),
          ("answer", .vstr "I reached the reasoning limit but couldn\x27t complete the task. Please restate your question."),
          ("intents", .vlist (ctx.intents.map Intent.toPy)),
          ("steps", .vlist (st.steps.map Step.toPy)),
          ("used_tools", .vlist st.usedTools),
          ("citations", .vlist st.citations),
          ("trace", traceToPy ctx.userQuery st.traceSteps)]

/-- Outcome of the `for intent in intents` loop. -/
inductive PassOut where
  | early (result : PyVal) (st : PState)
  | finished (st : PState)

/-- The `for intent in intents` loop of `_plan_and_execute`: any `return`
inside the loop (tool failure, or the max-rounds check after the loop of
one intent) aborts the whole pass. -/
def runIntents (ctx : LoopCtx) : List Intent → Nat → PState → PassOut
  | [], _, st => .finished st
  | intent :: rest, idx, st =>
    let m := memoryHintStage intent st
    match loopGo ctx intent idx m.1 m.2.1 ctx.maxRounds 0 m.2.2 with
    | .ret r st2 => .early r st2
    | .done st2 rc =>
      if rc ≥ ctx.maxRounds then .early (limitAnswer ctx st2) st2
      else runIntents ctx rest (idx + 1) st2

/-- `Agent._summarize_result`: the fixed no-observations answer, the LLM
summary, or the deterministic fallback if the LLM raises. -/
def summarizeResult (ctx : LoopCtx) (st : PState) : String × PState :=
  if st.observations.isEmpty then
    ("I couldn\x27t find relevant information for your question.", st)
  else
    let r := ctx.o.sumLLM st.c.sumLLM
    let st := { st with c := { st.c with sumLLM := st.c.sumLLM + 1 } }
    match r with
    | .ok s => (s, st)
    | .error _ => (formatFallbackAnswer st.observations, st)

/-- The summarized answer with the empty-answer default applied
(`core.py` lines 542–547), before the citation block. -/
def finishAnswerBase (ctx : LoopCtx) (st : PState) : String :=
  let a0 := summarizeResult ctx st
  if a0.1 = "" || strTrim a0.1 = "" then
    "Sorry, I couldn\x27t generate a proper response. Please try rephrasing your question."
  else a0.1

/-- The tail of `_plan_and_execute` after all intents completed normally
(`core.py` lines 542–561): summarization, the empty-answer default, the
citation block, and the final answer dict. -/
def finishPass (ctx : LoopCtx) (st : PState) : PyVal × PState :=
  let answer1 := finishAnswerBase ctx st
  let st := (summarizeResult ctx st).2
  let citationEntries := collectCitations st.usedTools
  let ac : String × List PyVal :=
    if !citationEntries.isEmpty then
      (appendCitationBlock answer1 citationEntries, citationEntries)
    else (answer1, st.citations)
  (.vdict [("type", .vstr "answer"),
           ("answer", .vstr ac.1),
           ("intents", .vlist (ctx.intents.map Intent.toPy)),
           ("steps", .vlist (st.steps.map Step.toPy)),
           ("used_tools", .vlist st.usedTools),
           ("citations", .vlist ac.2),
           ("trace", traceToPy ctx.userQuery st.traceSteps)], st)

/-- `Agent._plan_and_execute`: fresh local state (counters and ghost log
carried over from the caller), the intent loop, then the summary tail. -/
def planAndExecuteFull (maxRounds : Nat) (o : Oracles) (userId userQuery : String)
    (intents : List Intent) (sessionId : String) (c0 : Counters) (log0 : List Ev) :
    PyVal × PState :=
  let ctx : LoopCtx :=
    { maxRounds := maxRounds, o := o, intents := intents,
      userQuery := userQuery, userId := userId, sessionId := sessionId }
  let st0 : PState := { c := c0, log := log0 }
  match runIntents ctx intents 0 st0 with
  | .early r st => (r, st)
  | .finished st => finishPass ctx st

/-! ### Memory layer (`app/agent/memory.py`) and `Agent.handle` / `Agent.resume`
(`app/agent/core.py`) -/

/-- `ShortTermMemory.add`: append, then drop the oldest entry if the buffer
exceeds the limit. -/
def stmAdd (limit : Nat) (buf : List (String × String)) (role content : String) :
    List (String × String) :=
  let b := buf ++ [(role, content)]
  if b.length > limit then b.drop 1 else b

/-- A recorded call to `LongTermMemoryStore.store_conversation`. -/
structure StoreCall where
  userId : String
  sessionId : String
  messages : List (String × String)
  startIndex : Nat
deriving Repr, DecidableEq

/-- The documents `store_conversation` actually ingests from one call:
`(turn_index, text)` pairs, skipping messages with empty content (the doc
ids additionally embed a `uuid4` which no control flow reads). -/
def storeDocs (sc : StoreCall) : List (Nat × String) :=
  sc.messages.enum.filterMap
    (fun om => if om.2.2 = "" then none else some (sc.startIndex + om.1, om.2.2))

/-- The half-open index range `[startIndex, startIndex + len)` of one
store call. -/
def StoreCall.range (sc : StoreCall) : Nat × Nat :=
  (sc.startIndex, sc.startIndex + sc.messages.length)

/-- `SessionMemory` content, abstracted to a last-write-wins map keyed by
`(user_id, session_id, key)`.  Values are kept structurally (the Python
code stores `json.dumps` of dicts and parses them back; on the dicts
written here that round-trip is the identity).  `write(..., None)` deletes
(`SessionMemory.write` line 53). -/
abbrev SessionMap := List ((String × String × String) × PyVal)

def sessRead (sess : SessionMap) (u s k : String) : Option PyVal :=
  (sess.find? (fun e => e.1 == (u, s, k))).map (fun e => e.2)

def sessWrite (sess : SessionMap) (u s k : String) (v : Option PyVal) : SessionMap :=
  match v with
  | none => sess.filter (fun e => e.1 != (u, s, k))
  | some pv =>
    if sess.any (fun e => e.1 == (u, s, k)) then
      sess.map (fun e => if e.1 == (u, s, k) then (e.1, pv) else e)
    else sess ++ [((u, s, k), pv)]

/-- The serialized conversation context (`short_mem.get_context()` as it
appears inside session data). -/
def ctxToPy (msgs : List (String × String)) : PyVal :=
  .vlist (msgs.map (fun m => .vdict [("role", .vstr m.1), ("content", .vstr m.2)]))

/-- Cross-call state of one `Agent` object: the guard's mask map, the
short-term buffer, the session store, the recorded long-term store calls,
and the oracle counters with the ghost round log. -/
structure HState where
  guard : GuardSt := { mask_map := [] }
  shortBuf : List (String × String) := []
  session : SessionMap := []
  storeCalls : List StoreCall := []
  c : Counters := {}
  log : List Ev := []

/-- `session_data.get("longterm_saved", 0)` (always an int written by this
code; other shapes are coerced to the default). -/
def savedOf (sessionData : List (String × PyVal)) : Int :=
  match dictGet sessionData "longterm_saved" with
  | some (.vint n) => n
  | _ => 0

/-- The memory-update block shared by the `note_down` branch (`core.py`
lines 180–198) and the main path (lines 241–262): write the refreshed
session context with `longterm_saved = len(updated_context)` and forward
`updated_context[prev_saved:]` to long-term storage when
`prev_saved < len(updated_context)`. -/
def memoryUpdate (hs : HState) (userId sessionId : String)
    (sessionData : List (String × PyVal)) (updated : List (String × String))
    (lastIntents lastSteps : PyVal) : HState :=
  let prevSaved := savedOf sessionData
  let newSessionData := PyVal.vdict
    [("last_intents", lastIntents),
     ("last_steps", lastSteps),
     ("conversation_history", ctxToPy updated),
     ("clarification_pending", .vnone),
     ("longterm_saved", .vint updated.length)]
  let hs := { hs with
    shortBuf := updated,
    session := sessWrite hs.session userId sessionId "context" (some newSessionData) }
  if prevSaved < (updated.length : Int) then
    { hs with storeCalls := hs.storeCalls ++
      [{ userId := userId, sessionId := sessionId,
         messages := updated.drop prevSaved.toNat,
         startIndex := prevSaved.toNat }] }
  else hs

/-- `session_data` as `handle` parses it from the persisted context. -/
def sessionCtxData (hs : HState) (u s : String) : List (String × PyVal) :=
  match sessRead hs.session u s "context" with
  | some (.vdict d) => d
  | _ => []

/-- `Agent.handle` (`core.py` lines 112–268).  Long-term recall (step 2)
always ends with `longterm_context = []`: `LongTermMemoryStore.search`
accepts only `(query, top_k)` but is called with `user_id`/`session_id`
keywords, so it raises `TypeError`, caught at lines 152–154; the merged
context is then just the short-term context. -/
def handle (maxRounds shortLimit : Nat) (o : Oracles) (hs : HState)
    (userId text0 sessionId : String) (secureMode : Bool) : PyVal × HState :=
  let sin : (PyVal ⊕ String) × GuardSt :=
    if secureMode then agentSecureInbound hs.guard text0 else (.inr text0, hs.guard)
  match sin.1 with
  | .inl blocked => (blocked, { hs with guard := sin.2 })
  | .inr text =>
    let hs := { hs with guard := sin.2 }
    let sessionData : List (String × PyVal) := sessionCtxData hs userId sessionId
    let recogR := o.recognize hs.c.recog
    let hs := { hs with c := { hs.c with recog := hs.c.recog + 1 } }
    match recogR with
    | .inr k =>
      let ts := o.clock hs.c.clock
      let hs := { hs with c := { hs.c with clock := hs.c.clock + 1 } }
      let pending := PyVal.vdict
        [("clarification_type", .vstr "intent_ambiguous"),
         ("original_query", .vstr text),
         ("pending_intents", .vlist []),
         ("pending_steps", .vlist []),
         ("timestamp", .vstr ts)]
      let hs := { hs with
        session := sessWrite hs.session userId sessionId "pending_context" (some pending) }
      (k.toPy, hs)
    | .inl intents =>
      if !intents.isEmpty && intents.all (fun i => i.name = "note_down") then
        let infoText :=
          match intents with
          | i0 :: _ =>
            let tv := pyGet i0.slots "text"
            if tv.truthy then pyStr tv else text
          | [] => text
        let ack := "OK, I have noted the information down."
        let updated := stmAdd shortLimit (stmAdd shortLimit hs.shortBuf "user" infoText)
          "assistant" ack
        let hs := memoryUpdate hs userId sessionId sessionData updated
          (.vlist (intents.map Intent.toPy)) (.vlist [])
        (.vdict [("type", .vstr "answer"),
                 ("answer", .vstr ack),
                 ("intents", .vlist (intents.map Intent.toPy)),
                 ("steps", .vlist []),
                 ("used_tools", .vlist []),
                 ("citations", .vlist []),
                 ("trace", traceToPy text [])], hs)
      else
        let pr := planAndExecuteFull maxRounds o userId text intents sessionId hs.c hs.log
        let ps := pr.2
        let hs := { hs with c := ps.c, log := ps.log }
        let resultD : List (String × PyVal) :=
          match pr.1 with | .vdict d => d | _ => []
        let resultD :=
          if !(pyGet resultD "answer").truthy then
            if pyGet resultD "type" == PyVal.vstr "clarification" then
              dictSet resultD "answer"
                (pyGetD resultD "message" (.vstr "Sorry, I don\x27t understand your question."))
            else
              dictSet resultD "answer"
                (.vstr "Sorry, I encountered an issue while processing your request. Please try again.")
          else resultD
        if pyGet resultD "type" == PyVal.vstr "clarification" then
          let resultD := dictSet resultD "steps" (pyGetD resultD "steps" (.vlist []))
          let resultD := dictSet resultD "intents" (.vlist (intents.map Intent.toPy))
          let ts := o.clock hs.c.clock
          let hs := { hs with c := { hs.c with clock := hs.c.clock + 1 } }
          let pending := PyVal.vdict
            [("clarification_type", .vstr "tool_failed"),
             ("original_query", .vstr text),
             ("pending_intents", pyGet resultD "intents"),
             ("pending_steps", pyGet resultD "steps"),
             ("timestamp", .vstr ts)]
          let hs := { hs with
            session := sessWrite hs.session userId sessionId "pending_context" (some pending) }
          (.vdict resultD, hs)
        else
          let answerStr := pyStr (pyGetD resultD "answer" (.vstr ""))
          let updated := stmAdd shortLimit (stmAdd shortLimit hs.shortBuf "user" text)
            "assistant" answerStr
          let hs := memoryUpdate hs userId sessionId sessionData updated
            (.vlist (intents.map Intent.toPy)) (pyGetD resultD "steps" (.vlist []))
          if secureMode && (dictGet resultD "answer").isSome then
            let so := agentSecureOutbound hs.guard resultD
            (.vdict so.1, { hs with guard := so.2 })
          else (.vdict resultD, hs)

/-- The exception text reaching `resume`'s `except` handler when
`_recognize_intents` returns a clarification dict and `_plan_and_execute`
iterates over it: the dict's keys are strings, `_plan_next_step`'s own
handler calls `_fallback_planning`, and `intent.slots` raises. -/
def resumeAttrErr : String := "\x27str\x27 object has no attribute \x27slots\x27"

/-- `Agent.resume` (`core.py` lines 270–307). -/
def resume (maxRounds shortLimit : Nat) (o : Oracles) (hs : HState)
    (userId userReply sessionId : String) : PyVal × HState :=
  match sessRead hs.session userId sessionId "pending_context" with
  | none =>
    (.vdict [("type", .vstr "answer"),
             ("answer", .vstr "No pending clarification found. Please start a new query.")], hs)
  | some ctxVal =>
    let ctxD : List (String × PyVal) := match ctxVal with | .vdict d => d | _ => []
    let ct := match pyGetD ctxD "clarification_type" (.vstr "") with
      | .vstr s => s | v => pyStr v
    let originalQuery := match pyGetD ctxD "original_query" (.vstr "") with
      | .vstr s => s | v => pyStr v
    if ct = "intent_ambiguous" then
      let recogR := o.recognize hs.c.recog
      let hs := { hs with c := { hs.c with recog := hs.c.recog + 1 } }
      let hs := { hs with
        session := sessWrite hs.session userId sessionId "pending_context" none }
      match recogR with
      | .inl intents =>
        let pr := planAndExecuteFull maxRounds o userId userReply intents sessionId hs.c hs.log
        (pr.1, { hs with c := pr.2.c, log := pr.2.log })
      | .inr _ =>
        (.vdict [("type", .vstr "answer"),
                 ("answer", .vstr ("An error occurred while resuming: " ++ resumeAttrErr))], hs)
    else if ct = "tool_failed" then
      if isSubstring "retry" (strLower userReply) then
        let hs := { hs with
          session := sessWrite hs.session userId sessionId "pending_context" none }
        handle maxRounds shortLimit o hs userId originalQuery sessionId false
      else
        let hs := { hs with
          session := sessWrite hs.session userId sessionId "pending_context" none }
        (.vdict [("type", .vstr "answer"),
                 ("answer", .vstr "Okay, operation cancelled. Anything else I can help with?")], hs)
    else
      let hs := { hs with
        session := sessWrite hs.session userId sessionId "pending_context" none }
      handle maxRounds shortLimit o hs userId userReply sessionId false

/-! ### State projections and spec-side definitions -/

def IterOut.state : IterOut → PState
  | .ret _ st => st
  | .stop st => st
  | .next st => st

def LoopOut.state : LoopOut → PState
  | .ret _ st => st
  | .done st _ => st

def PassOut.state : PassOut → PState
  | .early _ st => st
  | .finished st => st

/-- The `type` field of a result dict. -/
def resultType (r : PyVal) : PyVal :=
  match r with
  | .vdict d => pyGet d "type"
  | _ => .vnone

/-- Field access on a result dict. -/
def resultGet (r : PyVal) (k : String) : PyVal :=
  match r with
  | .vdict d => pyGet d k
  | _ => .vnone

/-- The user-visible result shapes: a terminal answer, or a clarification
carrying a non-empty options list. -/
def resultWellShaped (r : PyVal) : Prop :=
  resultType r = .vstr "answer"
  ∨ (resultType r = .vstr "clarification"
     ∧ ∃ v vs, resultGet r "options" = .vlist (v :: vs))

/-- The `longterm_saved` cursor persisted for `(u, s)`. -/
def savedAt (hs : HState) (u s : String) : Int :=
  savedOf (sessionCtxData hs u s)

/-- The store calls recorded for one `(user_id, session_id)` key. -/
def storeCallsFor (hs : HState) (u s : String) : List StoreCall :=
  hs.storeCalls.filter (fun sc => sc.userId == u && sc.sessionId == s)

/-- Modelled from the spec (claim C6's procedure, *not* the code): «the
outbound guard first unmasks any placeholders recorded by the paired
inbound call, and only then re-scans the now-unmasked text for newly
generated PII, redacting each such match with type-specific masking».
Used to compare the claimed order of operations against the embedded
`agentSecureOutbound`. -/
def specC6OutboundText (g : GuardSt) (answer : String) : String :=
  let unmasked := g.mask_map.foldl (fun a mo => strReplace a mo.1 mo.2) answer
  let piiFound := piiOrder.flatMap (fun pt => rxFindAll pt.rx unmasked)
  if !piiFound.isEmpty then sanitizePiiOutput unmasked piiFound else unmasked

/-- Modelled from the amended claim C6: the outbound step first *re-masks*
literal inbound PII back to its placeholders, applies the unsafe-output
scan, redacts newly generated PII type-specifically, and only afterwards
restores the placeholders to their originals. -/
def amendedC6Spec (g : GuardSt) (answer : String) : String :=
  let remasked := g.mask_map.foldl (fun a mo => strReplace a mo.2 mo.1) answer
  let lowered := strLower remasked
  if blockedKeywords.any (fun bad => isSubstring bad lowered) then
    "sorry, I cannot answer this question"
  else
    let piiFound := piiOrder.flatMap (fun pt => rxFindAll pt.rx remasked)
    let t1 := if !piiFound.isEmpty then sanitizePiiOutput remasked piiFound else remasked
    g.mask_map.foldl (fun t mo => strReplace t mo.1 mo.2) t1

/-! ### Concrete scenarios for counterexamples and witnesses -/

/-- A planner step invoking the weather tool. -/
def cexStepW : Step :=
  { intent := "get_weather", thought := "check the weather", action := some "weather",
    input := [("city", .vstr "SG")], decide_next := true }

/-- A recognized weather intent. -/
def cexIntW : Intent :=
  { name := "get_weather", slots := [], confidence := 9/10 }

/-- Base oracle tape: one weather intent, the planner always proposes the
weather tool, the tool succeeds, the LLM answers deterministically. -/
def cexBase : Oracles :=
  { recognize := fun _ => .inl [cexIntW]
    planner := fun _ => some cexStepW
    tool := fun _ => .ok (.vdict [("temperature", .vint 30), ("location", .vstr "SG")])
    qa := fun _ => "qa answer"
    sumLLM := fun _ => .ok "summary answer"
    clock := fun _ => "2026-10-12T00:00:00" }

/-- C1 scenario: the tool succeeds for five rounds and raises on the sixth
(the final permitted round under the default `max_rounds = 6`). -/
def cexC1Oracles : Oracles :=
  { cexBase with
    tool := fun k =>
      if k < 5 then .ok (.vdict [("temperature", .vint 30), ("location", .vstr "SG")])
      else .error "boom" }

def cexC1Run : PyVal × PState :=
  planAndExecuteFull 6 cexC1Oracles "u" "weather please" [cexIntW] "s" {} []

/-- A degenerate loop context with `max_rounds = 0`: the while-guard fails
immediately, so the loop exits with `round_count` at the limit. -/
def c1wCtx : LoopCtx :=
  { maxRounds := 0, o := cexBase, intents := [cexIntW],
    userQuery := "q", userId := "u", sessionId := "s" }

/-- C2 scenario: the tool returns an envelope that *contains* an `error`
key whose value is the empty string (falsy). -/
def cexC2Oracles : Oracles :=
  { cexBase with
    planner := fun _ => some { cexStepW with decide_next := false }
    tool := fun _ => .ok (.vdict [("error", .vstr "")]) }

def cexC2Run : PyVal × PState :=
  planAndExecuteFull 6 cexC2Oracles "u" "q" [cexIntW] "s" {} []

/-- C2 witness scenario: a truthy `error` envelope, run through `handle`. -/
def cexC2bOracles : Oracles :=
  { cexBase with tool := fun _ => .ok (.vdict [("error", .vstr "E42")]) }

def cexC2bRun : PyVal × HState :=
  handle 6 5 cexC2bOracles {} "u" "q" "s" false

/-- C9 scenario: the tool raises with a distinctive internal message. -/
def cexC9Oracles : Oracles :=
  { cexBase with tool := fun _ => .error "E_SECRET_TOKEN_LEAK" }

def cexC9Run : PyVal × HState :=
  handle 6 5 cexC9Oracles {} "u" "q" "s" false

/-- Loop context whose tool always raises. -/
def c2wCtx : LoopCtx :=
  { maxRounds := 6, o := cexC9Oracles, intents := [cexIntW],
    userQuery := "q", userId := "u", sessionId := "s" }

/-- C5 scenario: a secure-mode turn whose input holds an email address and
whose recognition ends in the ambiguous clarification. -/
def cexC5Oracles : Oracles :=
  { cexBase with recognize := fun _ => .inr .ambiguous }

def cexC5Run : PyVal × HState :=
  handle 6 5 cexC5Oracles {} "u" "my email is a@b.com" "s" true

/-- C6 scenario: an inbound mask of `bob@x.com`, and a model answer that
echoes the placeholder and adds a fresh address. -/
def cexC6Guard : GuardSt := { mask_map := [("[EMAIL_1]", "bob@x.com")] }

def cexC6Result : List (String × PyVal) :=
  [("type", .vstr "answer"), ("answer", .vstr "Reach [EMAIL_1] or new@y.com")]

/-- C7 scenario: four consecutive answer turns on the same session with the
default short-term limit 5; the planner finishes immediately each turn. -/
def cexC7Oracles : Oracles :=
  { cexBase with
    planner := fun _ => some { cexStepW with action := some "finish", decide_next := false }
    sumLLM := fun k => .ok ("answer " ++ toString k) }

def cexC7Run1 : PyVal × HState := handle 6 5 cexC7Oracles {} "u" "q1" "s" false
def cexC7Run2 : PyVal × HState := handle 6 5 cexC7Oracles cexC7Run1.2 "u" "q2" "s" false
def cexC7Run3 : PyVal × HState := handle 6 5 cexC7Oracles cexC7Run2.2 "u" "q3" "s" false
def cexC7Run4 : PyVal × HState := handle 6 5 cexC7Oracles cexC7Run3.2 "u" "q4" "s" false

/-- C8 witness scenario: one vdb call yielding two identical citations. -/
def cexC8UsedTool : PyVal :=
  usedToolEntry "vdb" (.vdict [("query", .vstr "q")])
    (.vdict [("results", .vlist
      [.vdict [("chunk", .vstr "text a"),
               ("metadata", .vdict [("filename", .vstr "f.pdf"), ("page", .vint 2)])],
       .vdict [("chunk", .vstr "text b"),
               ("metadata", .vdict [("filename", .vstr "f.pdf"), ("page", .vint 2)])]])])
    "succeeded"

/-- C8 witness context: a finished pass whose state contains `cexC8UsedTool`. -/
def cexC8Ctx : LoopCtx :=
  { maxRounds := 6, o := cexBase, intents := [cexIntW],
    userQuery := "q", userId := "u", sessionId := "s" }

def cexC8State : PState :=
  { usedTools := [cexC8UsedTool], observations := ["obs"] }

/-- C4/C10 witness adapters. -/
def cexRunFun : List (String × PyVal) → Except String PyVal :=
  fun _ => .ok (.vdict [("temperature", .vint 30)])

def cexZapFun : List (String × PyVal) → Except String PyVal :=
  fun kw => .ok (.vlist (kw.map (fun x => x.2)))

def cexAdapterRun : ToolAdapter := { methods := [("run", cexRunFun)] }

def cexAdapterZap : ToolAdapter := { methods := [("zap", cexZapFun)] }

def cexRegistry : ToolRegistry := [("weather", cexAdapterRun), ("x", cexAdapterZap)]

/-- A value that hits the `{"result": value}` branch of the normalisation
(neither dict, list nor string). -/
def PyVal.isScalarLike : PyVal → Bool
  | .vdict _ => false
  | .vlist _ => false
  | .vstr _ => false
  | _ => true

/-- C3 counterexample data: the intents list holds a malformed (non-dict)
entry followed by an intent with confidence 0.1. -/
def cexC3Data : List (String × PyVal) :=
  [("intents", .vlist
    [.vstr "bogus",
     .vdict [("name", .vstr "x"), ("confidence", .vrat (1/10))]])]

/-- C3 witness data: a well-formed high-confidence entry followed by a
low-confidence one. -/
def cexC3AmData : List (String × PyVal) :=
  [("intents", .vlist
    [.vdict [("name", .vstr "get_weather"), ("confidence", .vrat (9/10))],
     .vdict [("name", .vstr "x"), ("confidence", .vrat (3/10))]])]

/-- Pairwise ordering of store-call ranges: every call's range ends no
later than the next one starts (hence all ranges are disjoint). -/
def storeRangesOrdered (l : List StoreCall) : Prop :=
  List.Pairwise (fun a b => a.range.2 ≤ b.range.1) l

/-- The persistence invariant behind claim C7: the short-term buffer
respects its limit; for every `(user_id, session_id)`, the persisted
`longterm_saved` cursor is a valid index into the buffer, the recorded
store calls have ordered (disjoint) index ranges, and every recorded range
ends at or before the cursor. -/
def MemInv (shortLimit : Nat) (hs : HState) : Prop :=
  hs.shortBuf.length ≤ shortLimit ∧
  ∀ u s, 0 ≤ savedAt hs u s ∧ savedAt hs u s ≤ (hs.shortBuf.length : Int) ∧
    storeRangesOrdered (storeCallsFor hs u s) ∧
    ∀ sc ∈ storeCallsFor hs u s, (sc.range.2 : Int) ≤ savedAt hs u s

/-! ## Theorems -/

/-! ### Generic dictionary and session-store lemmas -/

theorem dictGet_dictSet_self (d : List (String × PyVal)) (k : String) (v : PyVal) :
    dictGet (dictSet d k v) k = some v := by
  unfold dictSet dictGet
  split
  · rename_i hany
    rw [List.find?_map]
    have hpred : ((fun kv : String × PyVal => kv.1 == k) ∘
        (fun kv : String × PyVal => if kv.1 == k then (k, v) else kv)) =
        fun kv : String × PyVal => kv.1 == k := by
      funext kv
      by_cases hkv : kv.1 = k <;> simp [hkv]
    rw [hpred]
    obtain ⟨x, hx, hpx⟩ := List.any_eq_true.mp hany
    have hsome : (d.find? fun kv => kv.1 == k).isSome :=
      List.find?_isSome.mpr ⟨x, hx, hpx⟩
    cases hf : d.find? (fun kv => kv.1 == k) with
    | none => rw [hf] at hsome; simp at hsome
    | some y =>
      have hy : y.1 = k := by simpa using List.find?_some hf
      simp [hy]
  · rename_i hany
    rw [List.find?_append]
    have hnone : d.find? (fun kv => kv.1 == k) = none := by
      rw [List.find?_eq_none]
      intro x hx hpx
      exact hany (List.any_eq_true.mpr ⟨x, hx, hpx⟩)
    simp [hnone]

theorem dictGet_dictSet_ne (d : List (String × PyVal)) (k k' : String) (v : PyVal)
    (h : k' ≠ k) : dictGet (dictSet d k v) k' = dictGet d k' := by
  unfold dictSet dictGet
  split
  · rw [List.find?_map]
    have hpred : ((fun kv : String × PyVal => kv.1 == k') ∘
        (fun kv : String × PyVal => if kv.1 == k then (k, v) else kv)) =
        fun kv : String × PyVal => kv.1 == k' := by
      funext kv
      by_cases hkv : kv.1 = k
      · simp [hkv, Ne.symm h]
      · simp [hkv]
    rw [hpred]
    cases hf : d.find? (fun kv => kv.1 == k') with
    | none => rfl
    | some y =>
      have hy := List.find?_some hf
      have hyk : y.1 ≠ k := by
        have : y.1 = k' := by simpa using hy
        simpa [this] using h
      simp [Option.map_some, hyk]
  · rw [List.find?_append]
    cases hf : d.find? (fun kv => kv.1 == k') with
    | some x => simp [hf]
    | none => simp [hf, Ne.symm h]

theorem pyGet_dictSet_self (d : List (String × PyVal)) (k : String) (v : PyVal) :
    pyGet (dictSet d k v) k = v := by
  unfold pyGet
  rw [dictGet_dictSet_self]
  rfl

theorem pyGet_dictSet_ne (d : List (String × PyVal)) (k k' : String) (v : PyVal)
    (h : k' ≠ k) : pyGet (dictSet d k v) k' = pyGet d k' := by
  unfold pyGet
  rw [dictGet_dictSet_ne _ _ _ _ h]

theorem sessRead_sessWrite_self (sess : SessionMap) (u s k : String) (v : PyVal) :
    sessRead (sessWrite sess u s k (some v)) u s k = some v := by
  simp only [sessWrite]
  unfold sessRead
  split
  · rename_i hany
    rw [List.find?_map]
    have hpred : ((fun e : (String × String × String) × PyVal => e.1 == (u, s, k)) ∘
        (fun e : (String × String × String) × PyVal =>
          if e.1 == (u, s, k) then (e.1, v) else e)) =
        fun e : (String × String × String) × PyVal => e.1 == (u, s, k) := by
      funext e
      by_cases he : e.1 = (u, s, k) <;> simp [he]
    rw [hpred]
    obtain ⟨x, hx, hpx⟩ := List.any_eq_true.mp hany
    have hsome : (sess.find? fun e => e.1 == (u, s, k)).isSome :=
      List.find?_isSome.mpr ⟨x, hx, hpx⟩
    cases hf : sess.find? (fun e => e.1 == (u, s, k)) with
    | none => rw [hf] at hsome; simp at hsome
    | some y =>
      have hy := List.find?_some hf
      simp [Option.map_some, show y.1 = (u, s, k) from by simpa using hy]
  · rename_i hany
    rw [List.find?_append]
    have hnone : sess.find? (fun e => e.1 == (u, s, k)) = none := by
      rw [List.find?_eq_none]
      intro x hx hpx
      exact hany (List.any_eq_true.mpr ⟨x, hx, hpx⟩)
    simp [hnone]

theorem sessRead_sessWrite_ne (sess : SessionMap) (u s k u' s' k' : String)
    (v : Option PyVal) (h : (u', s', k') ≠ (u, s, k)) :
    sessRead (sessWrite sess u s k v) u' s' k' = sessRead sess u' s' k' := by
  cases v with
  | none =>
    simp only [sessWrite]
    unfold sessRead
    induction sess with
    | nil => simp
    | cons e rest ih =>
      simp only [List.filter_cons, List.find?_cons]
      by_cases he : e.1 = (u, s, k)
      · simp only [show (e.1 != (u, s, k)) = false from by simp [he], if_false]
        simp only [show (e.1 == (u', s', k')) = false from by simp [he, Ne.symm h]]
        exact ih
      · simp only [show (e.1 != (u, s, k)) = true from by simp [he], if_true]
        by_cases he' : e.1 = (u', s', k')
        · simp only [List.find?_cons, show (e.1 == (u', s', k')) = true from by simp [he']]
        · simp only [List.find?_cons, show (e.1 == (u', s', k')) = false from by simp [he']]
          exact ih
  | some pv =>
    simp only [sessWrite]
    unfold sessRead
    split
    · rw [List.find?_map]
      have hpred : ((fun e : (String × String × String) × PyVal => e.1 == (u', s', k')) ∘
          (fun e : (String × String × String) × PyVal =>
            if e.1 == (u, s, k) then (e.1, pv) else e)) =
          fun e : (String × String × String) × PyVal => e.1 == (u', s', k') := by
        funext e
        by_cases he : e.1 = (u, s, k) <;> simp [he]
      rw [hpred]
      cases hf : sess.find? (fun e => e.1 == (u', s', k')) with
      | none => rfl
      | some y =>
        have hy := List.find?_some hf
        have hyk : y.1 ≠ (u, s, k) := by
          have : y.1 = (u', s', k') := by simpa using hy
          simpa [this] using h
        simp [Option.map_some, hyk]
    · rw [List.find?_append]
      cases hf : sess.find? (fun e => e.1 == (u', s', k')) with
      | some x => simp [hf]
      | none => simp [hf, Ne.symm h]

/-! ### C4 — tool result normalisation and exception conversion -/

/-- C4: for every registered tool and every value its resolved adapter
method returns, `ToolRegistry.invoke` returns the normalisation of that
value — dict passthrough, list → `{"results": list}`, string →
`{"text": string}`, any other value → `{"result": value}` — and for every
exception the adapter raises, it returns `{"error": message}` and never
lets the exception propagate (the Lean embedding of `invoke` is a total
function into result dicts). -/
theorem c4_invoke_normalizes (reg : ToolRegistry) (toolName : String)
    (kwargs : List (String × PyVal)) (nm : String) (tool : ToolAdapter)
    (f : List (String × PyVal) → Except String PyVal)
    (hfind : reg.find? (fun t => t.1 == invokeToolName toolName) = some (nm, tool))
    (hres : tool.resolve (candidateMethods (dictPop kwargs "method").1) = some f) :
    ToolRegistry.invoke reg toolName kwargs = normalizeToolResult (f (invokeCallKwargs kwargs))
    ∧ (∀ d, f (invokeCallKwargs kwargs) = .ok (.vdict d) →
        ToolRegistry.invoke reg toolName kwargs = .vdict d)
    ∧ (∀ l, f (invokeCallKwargs kwargs) = .ok (.vlist l) →
        ToolRegistry.invoke reg toolName kwargs = .vdict [("results", .vlist l)])
    ∧ (∀ s, f (invokeCallKwargs kwargs) = .ok (.vstr s) →
        ToolRegistry.invoke reg toolName kwargs = .vdict [("text", .vstr s)])
    ∧ (∀ v, v.isScalarLike = true → f (invokeCallKwargs kwargs) = .ok v →
        ToolRegistry.invoke reg toolName kwargs = .vdict [("result", v)])
    ∧ (∀ e, f (invokeCallKwargs kwargs) = .error e →
        ToolRegistry.invoke reg toolName kwargs = .vdict [("error", .vstr e)]) := by
  have hmain : ToolRegistry.invoke reg toolName kwargs =
      normalizeToolResult (f (invokeCallKwargs kwargs)) := by
    simp only [ToolRegistry.invoke, hfind, hres]
  refine ⟨hmain, ?_, ?_, ?_, ?_, ?_⟩
  · intro d hd; rw [hmain, hd]; rfl
  · intro l hl; rw [hmain, hl]; rfl
  · intro s hs; rw [hmain, hs]; rfl
  · intro v hv hok
    rw [hmain, hok]
    cases v <;> simp [PyVal.isScalarLike] at hv <;> rfl
  · intro e he; rw [hmain, he]; rfl

/-- Witness for C4 at a concrete registry: the dict-returning `run` method
of the weather adapter passes through, and a list-returning override is
wrapped in `results`. -/
theorem c4_invoke_normalizes_witness :
    ToolRegistry.invoke cexRegistry "weather.current" [] =
      .vdict [("temperature", .vint 30)]
    ∧ ToolRegistry.invoke cexRegistry "x" [("method", .vstr "zap")] =
      .vdict [("results", .vlist [])] := by
  constructor
  · exact (c4_invoke_normalizes cexRegistry "weather.current" [] "weather" cexAdapterRun
      cexRunFun rfl rfl).2.1 _ rfl
  · exact (c4_invoke_normalizes cexRegistry "x" [("method", .vstr "zap")] "x" cexAdapterZap
      cexZapFun rfl rfl).2.2.1 _ rfl

/-! ### C10 — totality of `ToolRegistry.invoke` over tool names -/

/-- C10: `ToolRegistry.invoke` is total over tool names: an unregistered
prefix yields `{"error": "Unknown tool: <prefix>"}` without raising, and a
registered tool exposing neither the truthy `method` override nor any of
the conventional names (`run`, `query`, `current`, `execute`, `search`,
`invoke`) yields `{"error": "No callable interface found for tool
'<name>'"}` without raising. -/
theorem c10_invoke_total (reg : ToolRegistry) (toolName : String)
    (kwargs : List (String × PyVal)) :
    (reg.find? (fun t => t.1 == invokeToolName toolName) = none →
      ToolRegistry.invoke reg toolName kwargs =
        .vdict [("error", .vstr ("Unknown tool: " ++ invokeToolName toolName))])
    ∧ (∀ nm tool, reg.find? (fun t => t.1 == invokeToolName toolName) = some (nm, tool) →
        tool.resolve (candidateMethods (dictPop kwargs "method").1) = none →
        ToolRegistry.invoke reg toolName kwargs =
          .vdict [("error", .vstr ("No callable interface found for tool \x27" ++
            invokeToolName toolName ++ "\x27"))]) := by
  constructor
  · intro hnone
    simp only [ToolRegistry.invoke, hnone]
  · intro nm tool hfind hres
    simp only [ToolRegistry.invoke, hfind, hres]

/-- Witness for C10: `gmail.read` has the unregistered prefix `gmail`, and
the registered tool `x` exposes only `zap`, which is not conventional. -/
theorem c10_invoke_total_witness :
    ToolRegistry.invoke cexRegistry "gmail.read" [] =
      .vdict [("error", .vstr "Unknown tool: gmail")]
    ∧ ToolRegistry.invoke cexRegistry "x" [] =
      .vdict [("error", .vstr "No callable interface found for tool \x27x\x27")] := by
  constructor
  · exact (c10_invoke_total cexRegistry "gmail.read" []).1 rfl
  · exact (c10_invoke_total cexRegistry "x" []).2 "x" cexAdapterZap rfl rfl

/-! ### C3 — low-confidence intents and all-or-nothing clarification -/

/-- Counterexample to C3 as stated: `cexC3Data` lists an intent whose
parsed confidence (0.1) is strictly below `min_confidence`, yet the
recognition result is an intent list produced by the keyword fallback, not
a clarification dict: the malformed entry before it raises
`AttributeError`, which `_parse_llm_response` does not catch, and
`recognize`'s handler falls back to `_fallback_recognition`. -/
theorem c3_counterexample :
    entryConfidence [("name", .vstr "x"), ("confidence", .vrat (1/10))] < minConfidence
    ∧ parseLLMResponseData cexC3Data =
        .raised "AttributeError: intent entry has no attribute get"
    ∧ recognizeParsed cexC3Data "search the docs" =
        .inl [{ name := "query_knowledge",
                slots := [("query", .vstr "search the docs")],
                confidence := 7/10, priority := 0 }] := by
  refine ⟨?_, rfl, ?_⟩
  · rw [show entryConfidence [("name", .vstr "x"), ("confidence", .vrat (1/10))] =
      (1 : ℚ)/10 from rfl]
    norm_num [minConfidence]
  · rfl

/-- C3 as amended: if the classifier data lists an intent entry whose
parsed confidence is strictly below `min_confidence` (0.5) and every entry
before it is a well-formed object with confidence at or above the
threshold, then the entire result is the low-confidence clarification dict
(type `"clarification"`, empty `intents`); a partial list of only the
above-threshold intents is never returned.  (Malformed entries ahead of
the low-confidence one instead route recognition to the keyword fallback,
as the counterexample shows.) -/
theorem c3_amended (kvs : List (String × PyVal)) (pre post : List PyVal)
    (ed : List (String × PyVal)) (orig : String)
    (hint : dictGet kvs "intents" = some (.vlist (pre ++ .vdict ed :: post)))
    (hpre : ∀ p ∈ pre, ∃ pd, p = PyVal.vdict pd ∧ minConfidence ≤ entryConfidence pd)
    (hlow : entryConfidence ed < minConfidence) :
    parseLLMResponseData kvs = .clar (.lowConf (entryConfidence ed))
    ∧ recognizeParsed kvs orig = .inr (.lowConf (entryConfidence ed))
    ∧ resultType (ClarKind.toPy (.lowConf (entryConfidence ed))) = .vstr "clarification"
    ∧ resultGet (ClarKind.toPy (.lowConf (entryConfidence ed))) "intents" = .vlist [] := by
  have hloop : ∀ (pre' : List PyVal) (acc : List Intent),
      (∀ p ∈ pre', ∃ pd, p = PyVal.vdict pd ∧ minConfidence ≤ entryConfidence pd) →
      ∀ amb, parseIntentLoop amb (pre' ++ .vdict ed :: post) acc =
        .clar (.lowConf (entryConfidence ed)) := by
    intro pre'
    induction pre' with
    | nil =>
      intro acc _ amb
      simp [parseIntentLoop, hlow]
    | cons p rest ih =>
      intro acc hp amb
      obtain ⟨pd, hpd, hge⟩ := hp p (by simp)
      subst hpd
      have hnot : ¬(entryConfidence pd < minConfidence) := not_lt.mpr hge
      simp only [List.cons_append, parseIntentLoop, hnot, if_false]
      exact ih _ (fun q hq => hp q (by simp [hq])) amb
  have hparse : parseLLMResponseData kvs = .clar (.lowConf (entryConfidence ed)) := by
    unfold parseLLMResponseData
    rw [hint]
    exact hloop pre [] hpre _
  refine ⟨hparse, ?_, rfl, rfl⟩
  unfold recognizeParsed
  rw [hparse]

/-- Witness for C3 as amended, at `cexC3AmData` (a well-formed entry with
confidence 0.9 followed by one with confidence 0.3). -/
theorem c3_amended_witness :
    parseLLMResponseData cexC3AmData = .clar (.lowConf (3/10))
    ∧ recognizeParsed cexC3AmData "hi" = .inr (.lowConf (3/10)) := by
  have h := c3_amended cexC3AmData
    [.vdict [("name", .vstr "get_weather"), ("confidence", .vrat (9/10))]] []
    [("name", .vstr "x"), ("confidence", .vrat (3/10))] "hi"
    rfl
    (by
      intro p hp
      simp only [List.mem_singleton] at hp
      refine ⟨_, hp, ?_⟩
      rw [show entryConfidence [("name", .vstr "get_weather"), ("confidence", .vrat (9/10))] =
        (9 : ℚ)/10 from rfl]
      norm_num [minConfidence])
    (by
      rw [show entryConfidence [("name", .vstr "x"), ("confidence", .vrat (3/10))] =
        (3 : ℚ)/10 from rfl]
      norm_num [minConfidence])
  have hc : entryConfidence [("name", PyVal.vstr "x"), ("confidence", .vrat (3/10))] = 3/10 := rfl
  exact ⟨by rw [← hc]; exact h.1, by rw [← hc]; exact h.2.1⟩

/-! ### C8 — citation block appended iff citations collected -/

theorem citationOfResult_shape (r c : PyVal) (h : citationOfResult r = some c) :
    ∃ f p, c = PyVal.vdict [("filename", f), ("page", p)] ∧ f.truthy = true := by
  unfold citationOfResult at h
  split at h
  · dsimp only at h
    split at h
    · repeat' split at h
      all_goals first
      | (rename_i htr; exact ⟨_, _, (Option.some.inj h).symm, htr⟩)
      | exact absurd h (by simp)
    · exact absurd h (by simp)
  · exact absurd h (by simp)

theorem citationsOfTool_shape (tool c : PyVal) (h : c ∈ citationsOfTool tool) :
    ∃ f p, c = PyVal.vdict [("filename", f), ("page", p)] ∧ f.truthy = true := by
  unfold citationsOfTool at h
  repeat' split at h
  all_goals simp_all
  obtain ⟨-, a, -, ha⟩ := h
  obtain ⟨f, p, hc, ht⟩ := citationOfResult_shape a c ha
  exact ⟨f, ⟨p, hc⟩, ht⟩

theorem foldl_append_flatMap (f : PyVal → List PyVal) :
    ∀ (l acc : List PyVal), l.foldl (fun a t => a ++ f t) acc = acc ++ l.flatMap f := by
  intro l
  induction l with
  | nil => simp
  | cons t rest ih => intro acc; simp [List.foldl_cons, ih]

theorem collectCitations_shape (ut : List PyVal) :
    ∀ c ∈ collectCitations ut,
      ∃ f p, c = PyVal.vdict [("filename", f), ("page", p)] ∧ f.truthy = true := by
  intro c hc
  unfold collectCitations at hc
  rw [foldl_append_flatMap] at hc
  simp only [List.nil_append, List.mem_flatMap] at hc
  obtain ⟨tool, _, htool⟩ := hc
  exact citationsOfTool_shape tool c htool

theorem citeStep_ne_nil (u : List (PyVal × PyVal)) (c : PyVal) (h : u ≠ []) :
    citeStep u c ≠ [] := by
  unfold citeStep
  split
  · dsimp only
    split
    · exact h
    · simp
  · exact h

theorem citeFoldl_ne_nil (l : List PyVal) :
    ∀ u : List (PyVal × PyVal), u ≠ [] → l.foldl citeStep u ≠ [] := by
  induction l with
  | nil => intro u h; simpa using h
  | cons c rest ih =>
    intro u h
    rw [List.foldl_cons]
    exact ih _ (citeStep_ne_nil u c h)

theorem summarizeResult_usedTools (ctx : LoopCtx) (st : PState) :
    (summarizeResult ctx st).2.usedTools = st.usedTools := by
  unfold summarizeResult
  split
  · rfl
  · dsimp only
    split <;> rfl

theorem summarizeResult_citations (ctx : LoopCtx) (st : PState) :
    (summarizeResult ctx st).2.citations = st.citations := by
  unfold summarizeResult
  split
  · rfl
  · dsimp only
    split <;> rfl

/-- C8: at the end of a successfully completed `_plan_and_execute` pass
(the `finishPass` tail), the citation block is appended to the answer if
and only if `_collect_citations` extracted at least one `(filename, page)`
pair from vdb outputs; deduplication is by first occurrence under
(case-sensitive) value identity, an empty collection leaves the answer
unchanged, and a non-empty collection always yields a non-empty `Source`
block. -/
theorem c8_citation_block (ctx : LoopCtx) (st : PState) :
    (resultGet (finishPass ctx st).1 "answer" =
      .vstr (if (collectCitations st.usedTools).isEmpty then finishAnswerBase ctx st
             else appendCitationBlock (finishAnswerBase ctx st) (collectCitations st.usedTools)))
    ∧ (resultGet (finishPass ctx st).1 "citations" =
      .vlist (if (collectCitations st.usedTools).isEmpty then st.citations
              else collectCitations st.usedTools))
    ∧ (collectCitations st.usedTools = [] →
        appendCitationBlock (finishAnswerBase ctx st) (collectCitations st.usedTools) =
          finishAnswerBase ctx st)
    ∧ ((collectCitations st.usedTools) ≠ [] → ∃ ls, ls ≠ [] ∧
        appendCitationBlock (finishAnswerBase ctx st) (collectCitations st.usedTools) =
          strTrimRight (finishAnswerBase ctx st) ++ "\n\nSource:\n" ++
            String.intercalate "\n" ls) := by
  have hblock : ∀ cs : List PyVal, cs ≠ [] →
      (∀ c ∈ cs, ∃ f p, c = PyVal.vdict [("filename", f), ("page", p)] ∧ f.truthy = true) →
      ∀ answer : String, ∃ ls, ls ≠ [] ∧
        appendCitationBlock answer cs =
          strTrimRight answer ++ "\n\nSource:\n" ++ String.intercalate "\n" ls := by
    intro cs hne hshape answer
    match cs, hne with
    | c :: rest, _ =>
      obtain ⟨f, p, hc, hf⟩ := hshape c (by simp)
      have hstep : citeStep [] c = [(f, p)] := by
        subst hc
        simp [citeStep, pyGet, dictGet, hf]
      have huniq : (c :: rest).foldl citeStep [] ≠ [] := by
        rw [List.foldl_cons, hstep]
        exact citeFoldl_ne_nil rest [(f, p)] (by simp)
      unfold appendCitationBlock
      rw [if_neg (by simpa using huniq)]
      refine ⟨_, ?_, rfl⟩
      have : ((c :: rest).foldl citeStep []).enum ≠ [] := by
        intro hemp
        exact huniq (by simpa using congrArg List.length hemp)
      intro hemp
      exact this (by simpa using congrArg List.length hemp)
  have hfp : finishPass ctx st =
      (let answer1 := finishAnswerBase ctx st
       let st2 := (summarizeResult ctx st).2
       let citationEntries := collectCitations st2.usedTools
       let ac : String × List PyVal :=
         if !citationEntries.isEmpty then
           (appendCitationBlock answer1 citationEntries, citationEntries)
         else (answer1, st2.citations)
       (.vdict [("type", .vstr "answer"),
                ("answer", .vstr ac.1),
                ("intents", .vlist (ctx.intents.map Intent.toPy)),
                ("steps", .vlist (st2.steps.map Step.toPy)),
                ("used_tools", .vlist st2.usedTools),
                ("citations", .vlist ac.2),
                ("trace", traceToPy ctx.userQuery st2.traceSteps)], st2)) := rfl
  refine ⟨?_, ?_, ?_, ?_⟩
  · rw [hfp]
    dsimp only
    rw [summarizeResult_usedTools]
    cases hc : (collectCitations st.usedTools).isEmpty
    · simp only [hc, Bool.not_false, if_true, if_false]
      rfl
    · simp only [hc, Bool.not_true, if_false, if_true]
      rfl
  · rw [hfp]
    dsimp only
    rw [summarizeResult_usedTools, summarizeResult_citations]
    cases hc : (collectCitations st.usedTools).isEmpty
    · simp only [hc, Bool.not_false, if_true, if_false]
      rfl
    · simp only [hc, Bool.not_true, if_false, if_true]
      rfl
  · intro hnil
    rw [hnil]
    unfold appendCitationBlock
    simp
  · intro hne
    exact hblock _ hne (collectCitations_shape st.usedTools) _

/-- Witness for C8 at a concrete finished pass: two identical `(f.pdf, 2)`
citations deduplicate to one line, and the block is appended. -/
theorem c8_citation_block_witness :
    resultGet (finishPass cexC8Ctx cexC8State).1 "answer" =
      .vstr ("summary answer" ++ "\n\nSource:\n" ++ "1. f.pdf, page 2")
    ∧ collectCitations cexC8State.usedTools ≠ [] := by
  have h := (c8_citation_block cexC8Ctx cexC8State).1
  refine ⟨?_, by decide⟩
  rw [h]
  rfl

/-! ### C6 — outbound unmask/re-scan order and type-specific masking -/

/-- Counterexample to C6 as stated: with the inbound mask
`[EMAIL_1] ↦ bob@x.com` and the answer `"Reach [EMAIL_1] or new@y.com"`,
the code returns `"Reach bob@x.com or n***@y.com"` — the placeholder is
restored *after* the re-scan, so the inbound address is not redacted —
whereas the claimed unmask-first-then-re-scan procedure
(`specC6OutboundText`) would produce `"Reach b***@x.com or n***@y.com"`,
redacting the restored inbound address as well.  (The loop at `core.py`
lines 100–101 binds `original, mask` to the items of a map whose keys are
the mask tokens, so it re-masks rather than unmasks; unmasking happens at
the end of `SecurityGuard.outbound`.) -/
theorem c6_counterexample :
    pyGet (agentSecureOutbound cexC6Guard cexC6Result).1 "answer" =
      .vstr "Reach bob@x.com or n***@y.com"
    ∧ specC6OutboundText cexC6Guard "Reach [EMAIL_1] or new@y.com" =
      "Reach b***@x.com or n***@y.com"
    ∧ pyGet (agentSecureOutbound cexC6Guard cexC6Result).1 "answer" ≠
      .vstr (specC6OutboundText cexC6Guard "Reach [EMAIL_1] or new@y.com")
    ∧ isSubstring "bob@x.com" "Reach bob@x.com or n***@y.com" = true := by
  refine ⟨rfl, rfl, ?_, rfl⟩
  rw [show specC6OutboundText cexC6Guard "Reach [EMAIL_1] or new@y.com" =
    "Reach b***@x.com or n***@y.com" from rfl]
  rw [show pyGet (agentSecureOutbound cexC6Guard cexC6Result).1 "answer" =
    .vstr "Reach bob@x.com or n***@y.com" from rfl]
  decide

/-- C6 as amended: the outbound step first *re-masks* literal inbound PII
back to its placeholders, then re-scans that text — so only newly
generated PII is found — redacts each found string type-specifically
(mobile keeps first 3 and last 2 digits; otherwise email keeps the first
initial plus domain; otherwise IP becomes `[REDACTED_IP]`; otherwise the
generic `[REDACTED]`), and only afterwards restores placeholders to their
originals; the turn-scoped mask map is cleared at the end. -/
theorem agentSecureOutbound_eq (g : GuardSt) (result : List (String × PyVal))
    (h : (dictGet result "answer").isSome = true) :
    agentSecureOutbound g result =
      (dictSet (dictSet result "answer"
          (.vstr (amendedC6Spec g (pyStr (pyGet result "answer")))))
        "secure_mode" (.vbool true),
       { mask_map := [] }) := by
  have hiso : (dictGet result "answer").isNone = false := by
    cases hd : dictGet result "answer" with
    | none => rw [hd] at h; simp at h
    | some _ => rfl
  have hrep : ∀ a : String,
      (SecurityGuard.outbound g
        (if !g.mask_map.isEmpty then
          g.mask_map.foldl (fun x om => strReplace x om.2 om.1) a
        else a)).text = amendedC6Spec g a := by
    intro a
    have hpre : (if !g.mask_map.isEmpty then
          g.mask_map.foldl (fun x om => strReplace x om.2 om.1) a
        else a) = g.mask_map.foldl (fun x om => strReplace x om.2 om.1) a := by
      cases g.mask_map with
      | nil => simp
      | cons x xs => simp
    rw [hpre]
    unfold SecurityGuard.outbound amendedC6Spec
    dsimp only
    split
    · rfl
    · rfl
  unfold agentSecureOutbound
  simp only [hiso, Bool.false_eq_true, if_false]
  rw [hrep]

theorem c6_amended (g : GuardSt) (result : List (String × PyVal))
    (h : (dictGet result "answer").isSome = true) :
    pyGet (agentSecureOutbound g result).1 "answer" =
      .vstr (amendedC6Spec g (pyStr (pyGet result "answer")))
    ∧ (agentSecureOutbound g result).2.mask_map = []
    ∧ (∀ t pii, rxMatch rxMobile pii = true →
        sanitizePiiOutput t [pii] =
          strReplace t pii (strTake pii 3 ++ "****" ++ strLast pii 2))
    ∧ (∀ t pii, rxMatch rxMobile pii = false → rxMatch rxEmail pii = true →
        sanitizePiiOutput t [pii] =
          strReplace t pii
            (strTake ((strSplitOnChar pii '@').headD "") 1 ++ "***@" ++
              String.intercalate "@" (strSplitOnChar pii '@').tail))
    ∧ (∀ t pii, rxMatch rxMobile pii = false → rxMatch rxEmail pii = false →
        rxMatch rxIpaddr pii = true →
        sanitizePiiOutput t [pii] = strReplace t pii "[REDACTED_IP]")
    ∧ (∀ t pii, rxMatch rxMobile pii = false → rxMatch rxEmail pii = false →
        rxMatch rxIpaddr pii = false →
        sanitizePiiOutput t [pii] = strReplace t pii "[REDACTED]") := by
  have hout := agentSecureOutbound_eq g result h
  refine ⟨?_, ?_, ?_, ?_, ?_, ?_⟩
  · rw [hout]
    dsimp only
    rw [pyGet_dictSet_ne _ _ _ _ (by decide), pyGet_dictSet_self]
  · rw [hout]
  · intro t pii hm
    simp [sanitizePiiOutput, hm]
  · intro t pii hm he
    simp [sanitizePiiOutput, hm, he]
  · intro t pii hm he hi
    simp [sanitizePiiOutput, hm, he, hi]
  · intro t pii hm he hi
    simp [sanitizePiiOutput, hm, he, hi]

/-- Witness for C6 as amended at the concrete scenario, plus a mobile
number redacted by the mobile rule. -/
theorem c6_amended_witness :
    pyGet (agentSecureOutbound cexC6Guard cexC6Result).1 "answer" =
      .vstr (amendedC6Spec cexC6Guard (pyStr (pyGet cexC6Result "answer")))
    ∧ (agentSecureOutbound cexC6Guard cexC6Result).2.mask_map = []
    ∧ sanitizePiiOutput "call 6512 3456 ok" ["6512 3456"] = "call 651****56 ok" := by
  have h := c6_amended cexC6Guard cexC6Result rfl
  refine ⟨h.1, h.2.1, ?_⟩
  rw [h.2.2.1 "call 6512 3456 ok" "6512 3456" rfl]
  rfl

/-! ### C5 — mask map lifetime across a turn -/

/-- Counterexample to C5 as stated: a secure-mode turn whose input masks
`a@b.com` and which ends in the ambiguous intent clarification returns
without running the outbound step, so `mask_map` is *not* empty after the
turn: the recorded mask survives into the next turn's state. -/
theorem c5_counterexample :
    resultType cexC5Run.1 = .vstr "clarification"
    ∧ cexC5Run.2.guard.mask_map = [("[EMAIL_1]", "a@b.com")]
    ∧ cexC5Run.2.guard.mask_map ≠ [] := by
  refine ⟨rfl, rfl, ?_⟩
  rw [show cexC5Run.2.guard.mask_map = [("[EMAIL_1]", "a@b.com")] from rfl]
  decide

/-- C5 as amended: the inbound scan clears the mask map before recording
new masks — when the input is not blocked, the result of `inbound` is
independent of any masks left over from a previous turn — and any turn
that reaches the outbound step ends with an empty mask map.  Turns that
end in a clarification (or a blocked input) skip the outbound step and
leave their inbound masks in `mask_map` until the next inbound call, as
the counterexample shows. -/
theorem c5_amended :
    (∀ g text, (SecurityGuard.inbound g text).1.safe = true →
      SecurityGuard.inbound g text = SecurityGuard.inbound { mask_map := [] } text)
    ∧ (∀ g result, (dictGet result "answer").isSome = true →
        (agentSecureOutbound g result).2.mask_map = []) := by
  constructor
  · intro g text hsafe
    unfold SecurityGuard.inbound at hsafe ⊢
    dsimp only at hsafe ⊢
    split at hsafe
    · simp at hsafe
    · rename_i hb
      rw [if_neg hb, if_neg hb]
  · intro g result h
    cases hd : dictGet result "answer" with
    | none => rw [hd] at h; simp at h
    | some v =>
      unfold agentSecureOutbound
      rw [hd]
      rfl

/-- Witness for C5 as amended: stale masks do not affect a fresh inbound
scan, and an answer-bearing outbound clears the map. -/
theorem c5_amended_witness :
    SecurityGuard.inbound { mask_map := [("[EMAIL_9]", "old@x.com")] } "hello a@b.com" =
      SecurityGuard.inbound { mask_map := [] } "hello a@b.com"
    ∧ (agentSecureOutbound { mask_map := [("[X]", "y")] }
        [("answer", .vstr "hi")]).2.mask_map = [] := by
  exact ⟨c5_amended.1 _ _ rfl, c5_amended.2 _ _ rfl⟩

/-! ### Loop-level helper lemmas (shared by the C1, C2 and C9 theorems) -/

theorem getLast?_append_singleton (l : List α) (a : α) : (l ++ [a]).getLast? = some a := by
  induction l with
  | nil => rfl
  | cons x xs ih =>
    cases xs with
    | nil => rfl
    | cons y ys => simpa using ih

theorem summarizeResult_log (ctx : LoopCtx) (st : PState) :
    (summarizeResult ctx st).2.log = st.log := by
  unfold summarizeResult
  split
  · rfl
  · dsimp only
    split <;> rfl

theorem summarizeResult_steps (ctx : LoopCtx) (st : PState) :
    (summarizeResult ctx st).2.steps = st.steps := by
  unfold summarizeResult
  split
  · rfl
  · dsimp only
    split <;> rfl

theorem summarizeResult_traceSteps (ctx : LoopCtx) (st : PState) :
    (summarizeResult ctx st).2.traceSteps = st.traceSteps := by
  unfold summarizeResult
  split
  · rfl
  · dsimp only
    split <;> rfl

theorem iterTail_state_log (step : Step) (st : PState) :
    (iterTail step st).state.log = st.log := by
  unfold iterTail
  dsimp only
  repeat' split
  all_goals rfl

theorem iterTail_ne_ret (step : Step) (st : PState) (r : PyVal) (st2 : PState) :
    iterTail step st ≠ .ret r st2 := by
  unfold iterTail
  dsimp only
  repeat' split
  all_goals intro h
  all_goals cases h

/-- One loop iteration never touches the ghost round log. -/
theorem loopIter_state_log (ctx : LoopCtx) (intent : Intent) (mr : List PyVal)
    (mh : Bool) (st : PState) : (loopIter ctx intent mr mh st).state.log = st.log := by
  unfold loopIter
  dsimp only
  repeat' split
  all_goals first
  | rfl
  | (rw [iterTail_state_log])

/-- Every early `return` out of the loop body is a tool-failure
clarification: type `"clarification"`, options `Retry`/`Cancel`, and the
failed step (status `"failed"`, error set) is the last step recorded in
the trace, which is attached to the result. -/
theorem loopIter_ret_shape (ctx : LoopCtx) (intent : Intent) (mr : List PyVal)
    (mh : Bool) (st : PState) (r : PyVal) (st2 : PState)
    (h : loopIter ctx intent mr mh st = .ret r st2) :
    resultType r = .vstr "clarification"
    ∧ resultGet r "options" = .vlist [.vstr "Retry", .vstr "Cancel"]
    ∧ resultGet r "trace" = traceToPy ctx.userQuery st2.traceSteps
    ∧ ∃ s, st2.traceSteps.getLast? = some s ∧ s.status = "failed" ∧
        s.error.isSome = true := by
  unfold loopIter at h
  dsimp only at h
  repeat' split at h
  all_goals try (cases h)
  all_goals try (exact absurd h (iterTail_ne_ret _ _ _ _))
  all_goals exact ⟨rfl, rfl, rfl, _, getLast?_append_singleton _ _, rfl, rfl⟩

/-- Every ghost round event present after `loopGo` either was already in the
log or records a round count of at most `max_rounds` (the guard
`round_count < self.max_rounds` admits increments only below the bound). -/
theorem loopGo_log (ctx : LoopCtx) (intent : Intent) (idx : Nat) (mr : List PyVal)
    (mh : Bool) (fuel : Nat) :
    ∀ (rc : Nat) (st : PState) (e : Ev),
      e ∈ (loopGo ctx intent idx mr mh fuel rc st).state.log →
      e ∈ st.log ∨ ∃ i n, e = Ev.round i n ∧ n ≤ ctx.maxRounds := by
  induction fuel with
  | zero => intro rc st e h; exact .inl h
  | succ fuel ih =>
    intro rc st e h
    rw [loopGo] at h
    dsimp only at h
    by_cases hrc : rc < ctx.maxRounds
    · rw [if_pos hrc] at h
      split at h
      all_goals rename_i hit
      · rename_i r st2
        have hs : (loopIter ctx intent mr mh
            { st with log := st.log ++ [Ev.round idx (rc + 1)] }).state = st2 := by
          rw [hit]
          rfl
        have hl : st2.log = st.log ++ [Ev.round idx (rc + 1)] := by
          rw [← hs, loopIter_state_log]
        rw [LoopOut.state] at h
        rw [hl] at h
        rcases List.mem_append.mp h with h2 | h2
        · exact .inl h2
        · exact .inr ⟨idx, rc + 1, List.mem_singleton.mp h2, hrc⟩
      · rename_i st2
        have hs : (loopIter ctx intent mr mh
            { st with log := st.log ++ [Ev.round idx (rc + 1)] }).state = st2 := by
          rw [hit]
          rfl
        have hl : st2.log = st.log ++ [Ev.round idx (rc + 1)] := by
          rw [← hs, loopIter_state_log]
        rw [LoopOut.state] at h
        rw [hl] at h
        rcases List.mem_append.mp h with h2 | h2
        · exact .inl h2
        · exact .inr ⟨idx, rc + 1, List.mem_singleton.mp h2, hrc⟩
      · rename_i st2
        have hs : (loopIter ctx intent mr mh
            { st with log := st.log ++ [Ev.round idx (rc + 1)] }).state = st2 := by
          rw [hit]
          rfl
        have hl : st2.log = st.log ++ [Ev.round idx (rc + 1)] := by
          rw [← hs, loopIter_state_log]
        rcases ih (rc + 1) st2 e h with h2 | h2
        · rw [hl] at h2
          rcases List.mem_append.mp h2 with h3 | h3
          · exact .inl h3
          · exact .inr ⟨idx, rc + 1, List.mem_singleton.mp h3, hrc⟩
        · exact .inr h2
    · rw [if_neg hrc] at h
      exact .inl h

theorem finishPass_log (ctx : LoopCtx) (st : PState) :
    (finishPass ctx st).2.log = st.log := by
  unfold finishPass
  dsimp only
  exact summarizeResult_log ctx st

/-- Same round bound across the whole `for intent in intents` loop. -/
theorem runIntents_log (ctx : LoopCtx) (intents : List Intent) :
    ∀ (idx : Nat) (st : PState) (e : Ev),
      e ∈ (runIntents ctx intents idx st).state.log →
      e ∈ st.log ∨ ∃ i n, e = Ev.round i n ∧ n ≤ ctx.maxRounds := by
  induction intents with
  | nil => intro idx st e h; exact .inl h
  | cons intent rest ih =>
    intro idx st e h
    rw [runIntents] at h
    dsimp only [memoryHintStage] at h
    split at h
    all_goals rename_i hit
    · rename_i r st2
      have hs : (loopGo ctx intent idx [] false ctx.maxRounds 0 st).state = st2 := by
        rw [hit]
        rfl
      rw [PassOut.state] at h
      rw [← hs] at h
      exact loopGo_log ctx intent idx [] false ctx.maxRounds 0 st e h
    · rename_i st2 rc
      have hs : (loopGo ctx intent idx [] false ctx.maxRounds 0 st).state = st2 := by
        rw [hit]
        rfl
      split at h
      · rw [PassOut.state] at h
        rw [← hs] at h
        exact loopGo_log ctx intent idx [] false ctx.maxRounds 0 st e h
      · rcases ih (idx + 1) st2 e h with h2 | h2
        · rw [← hs] at h2
          exact loopGo_log ctx intent idx [] false ctx.maxRounds 0 st e h2
        · exact .inr h2

/-- The round bound lifted to the whole `_plan_and_execute` call. -/
theorem planAndExecuteFull_log (maxRounds : Nat) (o : Oracles)
    (uid uq : String) (intents : List Intent) (sid : String)
    (c0 : Counters) (log0 : List Ev) (e : Ev)
    (h : e ∈ (planAndExecuteFull maxRounds o uid uq intents sid c0 log0).2.log) :
    e ∈ log0 ∨ ∃ i n, e = Ev.round i n ∧ n ≤ maxRounds := by
  unfold planAndExecuteFull at h
  dsimp only at h
  split at h
  all_goals rename_i hit
  · rename_i r st
    have hs : (runIntents
        { maxRounds := maxRounds, o := o, intents := intents, userQuery := uq,
          userId := uid, sessionId := sid } intents 0
        { c := c0, log := log0 }).state = st := by
      rw [hit]
      rfl
    rw [← hs] at h
    exact runIntents_log _ intents 0 _ e h
  · rename_i st
    rw [finishPass_log] at h
    have hs : (runIntents
        { maxRounds := maxRounds, o := o, intents := intents, userQuery := uq,
          userId := uid, sessionId := sid } intents 0
        { c := c0, log := log0 }).state = st := by
      rw [hit]
      rfl
    rw [← hs] at h
    exact runIntents_log _ intents 0 _ e h

/-- C1 counterexample: with `max_rounds = 6` and a tool that raises on the
sixth (final permitted) round, `_plan_and_execute` records a round with
`round_count = 6 = max_rounds` and yet returns a `"clarification"` result,
not the reasoning-limit answer. -/
theorem c1_counterexample :
    Ev.round 0 6 ∈ cexC1Run.2.log
    ∧ resultType cexC1Run.1 = .vstr "clarification" := by
  constructor
  · decide
  · rfl

/-- C1 amended: (1) every round the loop records for any intent has
`round_count ≤ max_rounds`; (2) if one intent's loop exits normally with
`round_count` at the limit, the whole multi-intent pass aborts and the call
returns the reasoning-limit `"answer"` dict (fixed message, accumulated
trace), later intents unprocessed; but (3) an early tool-failure `return`
from inside the loop body takes precedence over the limit check: it aborts
the pass with the tool-failure result, which is a clarification even when
the final permitted round had just been consumed. -/
theorem c1_amended :
    (∀ (maxRounds : Nat) (o : Oracles) (uid uq : String) (intents : List Intent)
      (sid : String) (c0 : Counters) (log0 : List Ev) (e : Ev),
      e ∈ (planAndExecuteFull maxRounds o uid uq intents sid c0 log0).2.log →
      e ∈ log0 ∨ ∃ i n, e = Ev.round i n ∧ n ≤ maxRounds)
    ∧ (∀ (ctx : LoopCtx) (intent : Intent) (rest : List Intent) (idx : Nat)
        (st st2 : PState) (rc : Nat),
        loopGo ctx intent idx (memoryHintStage intent st).1
          (memoryHintStage intent st).2.1 ctx.maxRounds 0
          (memoryHintStage intent st).2.2 = .done st2 rc →
        rc ≥ ctx.maxRounds →
        runIntents ctx (intent :: rest) idx st = .early (limitAnswer ctx st2) st2
        ∧ resultType (limitAnswer ctx st2) = .vstr "answer"
        ∧ resultGet (limitAnswer ctx st2) "answer" =
            .vstr "I reached the reasoning limit but couldn\x27t complete the task. Please restate your question."
        ∧ resultGet (limitAnswer ctx st2) "trace" =
            traceToPy ctx.userQuery st2.traceSteps)
    ∧ (∀ (ctx : LoopCtx) (intent : Intent) (rest : List Intent) (idx : Nat)
        (st st2 : PState) (r : PyVal),
        loopGo ctx intent idx (memoryHintStage intent st).1
          (memoryHintStage intent st).2.1 ctx.maxRounds 0
          (memoryHintStage intent st).2.2 = .ret r st2 →
        runIntents ctx (intent :: rest) idx st = .early r st2) := by
  refine ⟨?_, ?_, ?_⟩
  · intro maxRounds o uid uq intents sid c0 log0 e h
    exact planAndExecuteFull_log maxRounds o uid uq intents sid c0 log0 e h
  · intro ctx intent rest idx st st2 rc h h2
    refine ⟨?_, rfl, rfl, rfl⟩
    rw [runIntents]
    rw [h]
    dsimp only
    rw [if_pos h2]
  · intro ctx intent rest idx st st2 r h
    rw [runIntents]
    rw [h]

/-- C2 counterexample: the tool envelope `\x7b"error": ""\x7d` *contains* an
`"error"` key, yet (the value being falsy) the loop does not abort: the run
ends in a normal `"answer"` and the step is recorded as `"succeeded"`. -/
theorem c2_counterexample :
    cexC2Oracles.tool 0 = .ok (.vdict [("error", .vstr "")])
    ∧ dictGet [("error", PyVal.vstr "")] "error" = some (.vstr "")
    ∧ resultType cexC2Run.1 = .vstr "answer"
    ∧ cexC2Run.2.traceSteps.map Step.status = ["succeeded"] :=
  ⟨rfl, rfl, rfl, rfl⟩

/-- C2 amended: (1) every early return out of the loop body is a
clarification with options `Retry`/`Cancel` and the failed step last in the
attached trace; (2) a tool invocation that raises aborts the iteration with
the tool-failure clarification; (3) an envelope whose `"error"` value is
*truthy* aborts with the tool-error clarification (a falsy `"error"` value
does not, by the counterexample); (4) `handle` then persists a
`pending_context` with `clarification_type = "tool_failed"` and the
original query. -/
theorem c2_amended :
    (∀ (ctx : LoopCtx) (intent : Intent) (mr : List PyVal) (mh : Bool)
      (st st2 : PState) (r : PyVal),
      loopIter ctx intent mr mh st = .ret r st2 →
      resultType r = .vstr "clarification"
      ∧ resultGet r "options" = .vlist [.vstr "Retry", .vstr "Cancel"]
      ∧ resultGet r "trace" = traceToPy ctx.userQuery st2.traceSteps
      ∧ ∃ s, st2.traceSteps.getLast? = some s ∧ s.status = "failed" ∧
          s.error.isSome = true)
    ∧ (∀ (ctx : LoopCtx) (intent : Intent) (mr : List PyVal) (mh : Bool)
        (st : PState) (step0 : Step) (e : String),
        ctx.o.planner st.c.planner = some step0 →
        actionIsTool step0.action = true →
        (decide (step0.action.getD "" = "vdb") && mh &&
          decide (intent.name = "query_knowledge")) = false →
        ctx.o.tool st.c.tool = .error e →
        ∃ st2, loopIter ctx intent mr mh st =
          .ret (toolFailClar ctx (step0.action.getD "") e st2) st2)
    ∧ (∀ (ctx : LoopCtx) (intent : Intent) (mr : List PyVal) (mh : Bool)
        (st : PState) (step0 : Step) (d : List (String × PyVal)),
        ctx.o.planner st.c.planner = some step0 →
        actionIsTool step0.action = true →
        (decide (step0.action.getD "" = "vdb") && mh &&
          decide (intent.name = "query_knowledge")) = false →
        ctx.o.tool st.c.tool = .ok (.vdict d) →
        dictTruthy d "error" = true →
        ∃ st2, loopIter ctx intent mr mh st =
          .ret (toolErrorClar ctx (step0.action.getD "")
            (pyGetD d "error" (.vstr "Unknown error")) st2) st2)
    ∧ (∀ (maxRounds shortLimit : Nat) (o : Oracles) (hs : HState)
        (userId text0 sessionId : String) (intents : List Intent)
        (d : List (String × PyVal)),
        o.recognize hs.c.recog = .inl intents →
        (!intents.isEmpty && intents.all (fun i => i.name = "note_down")) = false →
        (planAndExecuteFull maxRounds o userId text0 intents sessionId
          { hs.c with recog := hs.c.recog + 1 } hs.log).1 = .vdict d →
        pyGet d "type" = .vstr "clarification" →
        ∃ p, sessRead (handle maxRounds shortLimit o hs userId text0 sessionId
              false).2.session userId sessionId "pending_context" =
            some (.vdict p)
          ∧ pyGet p "clarification_type" = .vstr "tool_failed"
          ∧ pyGet p "original_query" = .vstr text0
          ∧ resultType (handle maxRounds shortLimit o hs userId text0 sessionId
              false).1 = .vstr "clarification") := by
  refine ⟨?_, ?_, ?_, ?_⟩
  · intro ctx intent mr mh st st2 r h
    exact loopIter_ret_shape ctx intent mr mh st r st2 h
  · intro ctx intent mr mh st step0 e hp hA hskip hT
    unfold loopIter
    dsimp only
    rw [hp]
    dsimp only
    rw [hA]
    rw [if_pos rfl]
    rw [if_neg (by rw [hskip]; exact Bool.false_ne_true)]
    rw [hT]
    dsimp only
    split
    · exact ⟨_, rfl⟩
    · exact ⟨_, rfl⟩
  · intro ctx intent mr mh st step0 d hp hA hskip hT hE
    unfold loopIter
    dsimp only
    rw [hp]
    dsimp only
    rw [hA]
    rw [if_pos rfl]
    rw [if_neg (by rw [hskip]; exact Bool.false_ne_true)]
    rw [hT]
    dsimp only
    rw [hE]
    rw [if_pos rfl]
    split
    · exact ⟨_, rfl⟩
    · exact ⟨_, rfl⟩
  · intro mR sL o hs userId text0 sessionId intents d hrec hnote hpr htype
    unfold handle
    dsimp only
    rw [if_neg Bool.false_ne_true]
    dsimp only
    rw [hrec]
    dsimp only
    rw [if_neg (by rw [hnote]; exact Bool.false_ne_true)]
    rw [hpr]
    dsimp only
    set R := if (!(pyGet d "answer").truthy) = true then
        (if (pyGet d "type" == PyVal.vstr "clarification") = true then
          dictSet d "answer"
            (pyGetD d "message" (.vstr "Sorry, I don\x27t understand your question."))
        else
          dictSet d "answer"
            (.vstr "Sorry, I encountered an issue while processing your request. Please try again."))
      else d with hR
    have hRtype : pyGet R "type" = .vstr "clarification" := by
      rw [hR]
      split
      · split
        · rw [pyGet_dictSet_ne _ _ _ _ (by decide)]; exact htype
        · rw [pyGet_dictSet_ne _ _ _ _ (by decide)]; exact htype
      · exact htype
    rw [if_pos (by rw [hRtype]; rfl)]
    dsimp only
    exact ⟨_, sessRead_sessWrite_self _ _ _ _ _, rfl, rfl, by
      dsimp only [resultType]
      rw [pyGet_dictSet_ne _ _ _ _ (by decide), pyGet_dictSet_ne _ _ _ _ (by decide)]
      exact hRtype⟩

theorem c2_amended_witness :
    (∃ st2, loopIter c2wCtx cexIntW [] false {} =
      .ret (toolFailClar c2wCtx (cexStepW.action.getD "") "E_SECRET_TOKEN_LEAK" st2) st2)
    ∧ (∃ p, sessRead (handle 6 5 cexC2bOracles {} "u" "q" "s" false).2.session
          "u" "s" "pending_context" = some (.vdict p)
        ∧ pyGet p "clarification_type" = .vstr "tool_failed"
        ∧ pyGet p "original_query" = .vstr "q"
        ∧ resultType (handle 6 5 cexC2bOracles {} "u" "q" "s" false).1 =
            .vstr "clarification") :=
  ⟨c2_amended.2.1 c2wCtx cexIntW [] false {} cexStepW "E_SECRET_TOKEN_LEAK"
     rfl rfl rfl rfl,
   c2_amended.2.2.2 6 5 cexC2bOracles {} "u" "q" "s" [cexIntW] _ rfl rfl rfl rfl⟩

theorem c1_amended_witness :
    (Ev.round 0 0 ∈ [Ev.round 0 0] ∨ ∃ i n, Ev.round 0 0 = Ev.round i n ∧ n ≤ 0)
    ∧ runIntents c1wCtx [cexIntW, cexIntW] 0 {} = .early (limitAnswer c1wCtx {}) {}
    ∧ resultType (limitAnswer c1wCtx {}) = .vstr "answer" :=
  ⟨c1_amended.1 0 cexBase "u" "q" [] "s" {} [Ev.round 0 0] (Ev.round 0 0) (by decide),
   (c1_amended.2.1 c1wCtx cexIntW [cexIntW] 0 {} {} 0 rfl (by decide)).1,
   (c1_amended.2.1 c1wCtx cexIntW [cexIntW] 0 {} {} 0 rfl (by decide)).2.1⟩

/-! ### Result-shape lemmas for the C9 claim -/

theorem limitAnswer_type (ctx : LoopCtx) (st : PState) :
    resultType (limitAnswer ctx st) = .vstr "answer" := rfl

theorem finishPass_type (ctx : LoopCtx) (st : PState) :
    resultType (finishPass ctx st).1 = .vstr "answer" := by
  unfold finishPass
  rfl

theorem clarKind_wellShaped (k : ClarKind) : resultWellShaped k.toPy := by
  cases k
  all_goals exact .inr ⟨rfl, _, _, rfl⟩

theorem agentSecureInbound_inl (g : GuardSt) (t : String) (b : PyVal)
    (h : (agentSecureInbound g t).1 = .inl b) : resultType b = .vstr "answer" := by
  unfold agentSecureInbound at h
  dsimp only at h
  split at h
  · cases h
    rfl
  · cases h

theorem wellShaped_vdict {r : PyVal} (h : resultWellShaped r) :
    ∃ D, r = .vdict D := by
  cases r
  case vdict D => exact ⟨D, rfl⟩
  all_goals rcases h with h | ⟨h, _⟩
  all_goals exact (nomatch h)

theorem loopGo_ret (ctx : LoopCtx) (intent : Intent) (idx : Nat) (mr : List PyVal)
    (mh : Bool) (fuel : Nat) :
    ∀ (rc : Nat) (st : PState) (r : PyVal) (st2 : PState),
      loopGo ctx intent idx mr mh fuel rc st = .ret r st2 →
      ∃ st1, loopIter ctx intent mr mh st1 = .ret r st2 := by
  induction fuel with
  | zero => intro rc st r st2 h; cases h
  | succ fuel ih =>
    intro rc st r st2 h
    rw [loopGo] at h
    dsimp only at h
    by_cases hrc : rc < ctx.maxRounds
    · rw [if_pos hrc] at h
      split at h
      all_goals rename_i hit
      · rename_i r' st'
        cases h
        exact ⟨_, hit⟩
      · cases h
      · rename_i st'
        exact ih (rc + 1) st' r st2 h
    · rw [if_neg hrc] at h
      cases h

theorem runIntents_early (ctx : LoopCtx) (intents : List Intent) :
    ∀ (idx : Nat) (st : PState) (r : PyVal) (st2 : PState),
      runIntents ctx intents idx st = .early r st2 →
      resultWellShaped r := by
  induction intents with
  | nil => intro idx st r st2 h; cases h
  | cons intent rest ih =>
    intro idx st r st2 h
    rw [runIntents] at h
    dsimp only [memoryHintStage] at h
    split at h
    all_goals rename_i hit
    · rename_i r' st'
      cases h
      obtain ⟨st1, h1⟩ := loopGo_ret ctx intent idx [] false ctx.maxRounds 0 st r st2 hit
      obtain ⟨ht, hop, _⟩ := loopIter_ret_shape ctx intent [] false st1 r st2 h1
      exact .inr ⟨ht, _, _, hop⟩
    · rename_i st' rc
      split at h
      · cases h
        exact .inl (limitAnswer_type _ _)
      · exact ih (idx + 1) st' r st2 h

theorem planAndExecuteFull_dict (maxRounds : Nat) (o : Oracles)
    (uid uq : String) (intents : List Intent) (sid : String)
    (c0 : Counters) (log0 : List Ev) :
    ∃ D, (planAndExecuteFull maxRounds o uid uq intents sid c0 log0).1 = .vdict D
      ∧ resultWellShaped (.vdict D) := by
  have hsh : resultWellShaped
      (planAndExecuteFull maxRounds o uid uq intents sid c0 log0).1 := by
    unfold planAndExecuteFull
    dsimp only
    split
    all_goals rename_i hit
    · rename_i r st
      exact runIntents_early _ intents 0 _ r st hit
    · rename_i st
      exact .inl (finishPass_type _ st)
  obtain ⟨D, hD⟩ := wellShaped_vdict hsh
  exact ⟨D, hD, hD ▸ hsh⟩

theorem handle_wellShaped (mR sL : Nat) (o : Oracles) (hs : HState)
    (uid t sid : String) (sm : Bool) :
    resultWellShaped (handle mR sL o hs uid t sid sm).1 := by
  unfold handle
  dsimp only
  split
  all_goals rename_i heq
  · rename_i blocked
    cases sm with
    | false =>
      rw [if_neg Bool.false_ne_true] at heq
      exact (nomatch heq)
    | true =>
      rw [if_pos rfl] at heq
      exact .inl (agentSecureInbound_inl hs.guard t blocked heq)
  · rename_i text
    split
    · exact clarKind_wellShaped _
    · rename_i intents hrec
      split
      · exact .inl rfl
      · obtain ⟨D, hD, hsh⟩ := planAndExecuteFull_dict mR o uid text intents sid _ _
        rw [hD]
        dsimp only
        set R := if (!(pyGet D "answer").truthy) = true then
            (if (pyGet D "type" == PyVal.vstr "clarification") = true then
              dictSet D "answer"
                (pyGetD D "message" (.vstr "Sorry, I don\x27t understand your question."))
            else
              dictSet D "answer"
                (.vstr "Sorry, I encountered an issue while processing your request. Please try again."))
          else D with hR
        have hRtype : pyGet R "type" = pyGet D "type" := by
          rw [hR]
          split
          · split
            · exact pyGet_dictSet_ne _ _ _ _ (by decide)
            · exact pyGet_dictSet_ne _ _ _ _ (by decide)
          · rfl
        have hRopt : pyGet R "options" = pyGet D "options" := by
          rw [hR]
          split
          · split
            · exact pyGet_dictSet_ne _ _ _ _ (by decide)
            · exact pyGet_dictSet_ne _ _ _ _ (by decide)
          · rfl
        have hRans : (dictGet R "answer").isSome = true → True := fun _ => trivial
        rcases hsh with htype | ⟨htype, v, vs, hopt⟩
        · rw [show (pyGet R "type" == PyVal.vstr "clarification") = false from by
            rw [hRtype]; rw [show pyGet D "type" = .vstr "answer" from htype]; rfl]
          rw [if_neg Bool.false_ne_true]
          split
          all_goals rename_i hsec
          · have hans : (dictGet R "answer").isSome = true :=
              ((Bool.and_eq_true _ _).mp hsec).2
            rw [agentSecureOutbound_eq _ _ hans]
            dsimp only
            refine .inl ?_
            dsimp only [resultType]
            rw [pyGet_dictSet_ne _ _ _ _ (by decide),
              pyGet_dictSet_ne _ _ _ _ (by decide), hRtype]
            exact htype
          · refine .inl ?_
            dsimp only [resultType]
            rw [hRtype]
            exact htype
        · rw [show (pyGet R "type" == PyVal.vstr "clarification") = true from by
            rw [hRtype]; rw [show pyGet D "type" = .vstr "clarification" from htype]; rfl]
          rw [if_pos rfl]
          dsimp only
          refine .inr ⟨?_, v, vs, ?_⟩
          · dsimp only [resultType]
            rw [pyGet_dictSet_ne _ _ _ _ (by decide),
              pyGet_dictSet_ne _ _ _ _ (by decide), hRtype]
            exact htype
          · dsimp only [resultGet]
            rw [pyGet_dictSet_ne _ _ _ _ (by decide),
              pyGet_dictSet_ne _ _ _ _ (by decide), hRopt]
            exact hopt

theorem resume_wellShaped (mR sL : Nat) (o : Oracles) (hs : HState)
    (uid reply sid : String) :
    resultWellShaped (resume mR sL o hs uid reply sid).1 := by
  unfold resume
  dsimp only
  split
  · exact .inl rfl
  · rename_i ctxVal
    split
    · split
      · rename_i intents hrec
        obtain ⟨D, hD, hsh⟩ := planAndExecuteFull_dict mR o uid reply intents sid _ _
        dsimp only
        rw [hD]
        exact hsh
      · exact .inl rfl
    · split
      · split
        · exact handle_wellShaped mR sL o _ uid _ sid false
        · exact .inl rfl
      · exact handle_wellShaped mR sL o _ uid reply sid false

/-! ### Memory-persistence lemmas for the C7 claim -/

theorem stmAdd_length (limit : Nat) (buf : List (String × String)) (r c : String)
    (h : buf.length ≤ limit) :
    (stmAdd limit buf r c).length ≤ limit
    ∧ buf.length ≤ (stmAdd limit buf r c).length := by
  unfold stmAdd
  dsimp only
  split
  all_goals rename_i hc
  · simp only [List.length_drop, List.length_append, List.length_cons,
      List.length_nil] at *
    omega
  · simp only [List.length_append, List.length_cons, List.length_nil] at *
    omega

theorem memoryUpdate_shortBuf (hs : HState) (uid sid : String)
    (sd : List (String × PyVal)) (updated : List (String × String))
    (li ls : PyVal) :
    (memoryUpdate hs uid sid sd updated li ls).shortBuf = updated := by
  unfold memoryUpdate
  dsimp only
  split <;> rfl

theorem savedAt_memoryUpdate_self (hs : HState) (uid sid : String)
    (sd : List (String × PyVal)) (updated : List (String × String))
    (li ls : PyVal) :
    savedAt (memoryUpdate hs uid sid sd updated li ls) uid sid =
      (updated.length : Int) := by
  unfold memoryUpdate
  dsimp only
  split
  all_goals
    unfold savedAt sessionCtxData
    dsimp only
    rw [sessRead_sessWrite_self]
    rfl

theorem savedAt_memoryUpdate_other (hs : HState) (uid sid : String)
    (sd : List (String × PyVal)) (updated : List (String × String))
    (li ls : PyVal) (u s : String) (hne : (u, s) ≠ (uid, sid)) :
    savedAt (memoryUpdate hs uid sid sd updated li ls) u s = savedAt hs u s := by
  have hkey : (u, s, "context") ≠ (uid, sid, "context") := by
    intro h
    injection h with h1 h2
    injection h2 with h2a h2b
    exact hne (by rw [h1, h2a])
  unfold memoryUpdate
  dsimp only
  split
  all_goals
    unfold savedAt sessionCtxData
    dsimp only
    rw [sessRead_sessWrite_ne _ _ _ _ _ _ _ _ hkey]

theorem storeCallsFor_memoryUpdate_self (hs : HState) (uid sid : String)
    (sd : List (String × PyVal)) (updated : List (String × String))
    (li ls : PyVal) :
    storeCallsFor (memoryUpdate hs uid sid sd updated li ls) uid sid =
      storeCallsFor hs uid sid ++
        (if savedOf sd < (updated.length : Int) then
          [{ userId := uid, sessionId := sid,
             messages := updated.drop (savedOf sd).toNat,
             startIndex := (savedOf sd).toNat }] else []) := by
  unfold memoryUpdate
  dsimp only
  split
  · unfold storeCallsFor
    dsimp only
    rw [List.filter_append]
    congr 1
    simp [List.filter_cons]
  · rw [List.append_nil]
    rfl

theorem storeCallsFor_memoryUpdate_other (hs : HState) (uid sid : String)
    (sd : List (String × PyVal)) (updated : List (String × String))
    (li ls : PyVal) (u s : String) (hne : (u, s) ≠ (uid, sid)) :
    storeCallsFor (memoryUpdate hs uid sid sd updated li ls) u s =
      storeCallsFor hs u s := by
  have hband : (uid == u && sid == s) = false := by
    by_cases hu : uid = u
    · have hx : (sid == s) = false :=
        beq_eq_false_iff_ne.mpr (fun hss => hne (by rw [hu, hss]))
      rw [hx, Bool.and_false]
    · have hx : (uid == u) = false := beq_eq_false_iff_ne.mpr hu
      rw [hx, Bool.false_and]
  unfold memoryUpdate
  dsimp only
  split
  · unfold storeCallsFor
    dsimp only
    rw [List.filter_append]
    simp only [List.filter_cons, List.filter_nil]
    rw [hband]
    rw [if_neg Bool.false_ne_true]
    rw [List.append_nil]
  · rfl

theorem memoryUpdate_storeCalls (hs : HState) (uid sid : String)
    (sd : List (String × PyVal)) (updated : List (String × String))
    (li ls : PyVal) :
    ∃ tail, (memoryUpdate hs uid sid sd updated li ls).storeCalls =
      hs.storeCalls ++ tail := by
  unfold memoryUpdate
  dsimp only
  split
  · exact ⟨_, rfl⟩
  · exact ⟨[], (List.append_nil _).symm⟩

theorem memoryUpdate_meminv (sL : Nat) (hs : HState) (uid sid : String)
    (sd : List (String × PyVal)) (updated : List (String × String)) (li ls : PyVal)
    (hcur : savedOf sd = savedAt hs uid sid)
    (hinv : MemInv sL hs)
    (hlen1 : updated.length ≤ sL)
    (hlen2 : hs.shortBuf.length ≤ updated.length) :
    MemInv sL (memoryUpdate hs uid sid sd updated li ls)
    ∧ (∀ u s, savedAt hs u s ≤
        savedAt (memoryUpdate hs uid sid sd updated li ls) u s)
    ∧ ∃ tail, (memoryUpdate hs uid sid sd updated li ls).storeCalls =
        hs.storeCalls ++ tail := by
  have hsaved : savedOf sd = savedAt hs uid sid := hcur
  have hP0 := (hinv.2 uid sid).1
  have hPb := (hinv.2 uid sid).2.1
  have hord := (hinv.2 uid sid).2.2.1
  have hends := (hinv.2 uid sid).2.2.2
  have hbuf := memoryUpdate_shortBuf hs uid sid sd updated li ls
  refine ⟨⟨by rw [hbuf]; exact hlen1, ?_⟩, ?_, memoryUpdate_storeCalls _ _ _ _ _ _ _⟩
  · intro u s
    by_cases hu : (u, s) = (uid, sid)
    · injection hu with h1 h2
      subst h1
      subst h2
      rw [savedAt_memoryUpdate_self, hbuf,
        storeCallsFor_memoryUpdate_self hs u s sd updated li ls]
      refine ⟨by exact_mod_cast Nat.zero_le _, le_refl _, ?_, ?_⟩
      · by_cases hlt : savedOf sd < (updated.length : Int)
        · rw [if_pos hlt]
          unfold storeRangesOrdered at hord ⊢
          rw [List.pairwise_append]
          refine ⟨hord, .cons (fun b hb => absurd hb (List.not_mem_nil _)) .nil, ?_⟩
          intro a ha b hb
          rw [List.mem_singleton] at hb
          subst hb
          have h3 := hends a ha
          rw [hsaved] at hlt
          dsimp only [StoreCall.range] at h3 ⊢
          omega
        · rw [if_neg hlt]
          rw [List.append_nil]
          exact hord
      · by_cases hlt : savedOf sd < (updated.length : Int)
        · rw [if_pos hlt]
          intro sc hsc
          rw [List.mem_append] at hsc
          rcases hsc with h | h
          · have h3 := hends sc h
            omega
          · rw [List.mem_singleton] at h
            subst h
            rw [hsaved] at hlt
            dsimp only [StoreCall.range]
            simp only [List.length_drop]
            omega
        · rw [if_neg hlt]
          rw [List.append_nil]
          intro sc hsc
          have h3 := hends sc hsc
          omega
    · rw [savedAt_memoryUpdate_other hs uid sid _ updated li ls u s hu, hbuf,
        storeCallsFor_memoryUpdate_other hs uid sid _ updated li ls u s hu]
      have h4 := hinv.2 u s
      exact ⟨h4.1, le_trans h4.2.1 (by exact_mod_cast hlen2), h4.2.2.1, h4.2.2.2⟩
  · intro u s
    by_cases hu : (u, s) = (uid, sid)
    · injection hu with h1 h2
      subst h1
      subst h2
      rw [savedAt_memoryUpdate_self]
      calc savedAt hs u s ≤ (hs.shortBuf.length : Int) := hPb
        _ ≤ (updated.length : Int) := by exact_mod_cast hlen2
    · rw [savedAt_memoryUpdate_other hs uid sid _ updated li ls u s hu]

theorem memPres_pending (sL : Nat) (hs : HState) (uid sid : String) (v : PyVal)
    (hinv : MemInv sL hs) :
    MemInv sL
      { hs with session := sessWrite hs.session uid sid "pending_context" (some v) }
    ∧ ∀ u s, savedAt
        { hs with session := sessWrite hs.session uid sid "pending_context" (some v) }
        u s = savedAt hs u s := by
  have hsa : ∀ u s, savedAt
      { hs with session := sessWrite hs.session uid sid "pending_context" (some v) }
      u s = savedAt hs u s := by
    intro u s
    unfold savedAt sessionCtxData
    dsimp only
    rw [sessRead_sessWrite_ne _ _ _ _ _ _ _ _ (by
      intro h
      injection h with h1 h2
      injection h2 with h2a h2b
      exact absurd h2b (by decide))]
  refine ⟨⟨hinv.1, fun u s => ?_⟩, hsa⟩
  rw [hsa u s]
  exact hinv.2 u s

set_option maxHeartbeats 4000000 in
theorem handle_meminv (mR sL : Nat) (o : Oracles) (hs : HState)
    (uid t sid : String) (sm : Bool) (hinv : MemInv sL hs) :
    MemInv sL (handle mR sL o hs uid t sid sm).2
    ∧ (∀ u s, savedAt hs u s ≤ savedAt (handle mR sL o hs uid t sid sm).2 u s)
    ∧ ∃ tail, (handle mR sL o hs uid t sid sm).2.storeCalls =
        hs.storeCalls ++ tail := by
  unfold handle
  dsimp only
  split
  · exact ⟨hinv, fun u s => le_refl _, [], (List.append_nil _).symm⟩
  · rename_i tx htx
    split
    · -- recognition clarification: only `pending_context` is written
      refine ⟨(memPres_pending sL _ uid sid _ hinv).1,
        fun u s => le_of_eq ((memPres_pending sL _ uid sid _ hinv).2 u s).symm,
        [], (List.append_nil _).symm⟩
    · rename_i intents hrec
      split
      · -- note_down branch: memoryUpdate with a twice-extended buffer
        refine memoryUpdate_meminv sL _ uid sid _ _ _ _ ?_ hinv ?_ ?_
        · exact rfl
        · exact (stmAdd_length sL _ "assistant" _
            (stmAdd_length sL hs.shortBuf "user" _ hinv.1).1).1
        · exact le_trans (stmAdd_length sL hs.shortBuf "user" _ hinv.1).2
            (stmAdd_length sL _ "assistant" _
              (stmAdd_length sL hs.shortBuf "user" _ hinv.1).1).2
      · -- main path: every leaf is a pending write or a memoryUpdate,
        -- possibly followed by a guard-only update
        set PR := (planAndExecuteFull mR o uid tx intents sid { recog := hs.c.recog + 1, planner := hs.c.planner, tool := hs.c.tool, qa := hs.c.qa, sumLLM := hs.c.sumLLM, clock := hs.c.clock } hs.log) with hPR
        repeat' split
        all_goals first
          | refine ⟨(memPres_pending sL _ uid sid _ hinv).1,
              fun u s => le_of_eq ((memPres_pending sL _ uid sid _ hinv).2 u s).symm,
              [], (List.append_nil _).symm⟩
          | (refine memoryUpdate_meminv sL _ uid sid _ _ _ _ ?_ hinv ?_ ?_ <;> first
              | exact rfl
              | exact (stmAdd_length sL _ "assistant" _
                  (stmAdd_length sL hs.shortBuf "user" _ hinv.1).1).1
              | exact le_trans (stmAdd_length sL hs.shortBuf "user" _ hinv.1).2
                  (stmAdd_length sL _ "assistant" _
                    (stmAdd_length sL hs.shortBuf "user" _ hinv.1).1).2)

theorem memInv_init (sL : Nat) : MemInv sL ({} : HState) :=
  ⟨Nat.zero_le _, fun u s =>
    ⟨le_refl _, le_refl _, List.Pairwise.nil,
     fun sc hsc => absurd hsc (List.not_mem_nil _)⟩⟩

/-- C7 counterexample: after the short-term buffer (limit 5) saturates,
turn `q3` is present in the buffer/conversation history, yet across all
four turns no `store_conversation` call ever ingests it — the turns the
buffer dropped were skipped by the cursor arithmetic, so "forwarded exactly
once" fails (some turns are forwarded zero times). -/
theorem c7_counterexample :
    ("user", "q3") ∈ cexC7Run3.2.shortBuf
    ∧ (storeCallsFor cexC7Run4.2 "u" "s").map StoreCall.range = [(0, 2), (2, 4), (4, 5)]
    ∧ (∀ sc ∈ storeCallsFor cexC7Run4.2 "u" "s", ∀ p ∈ storeDocs sc, p.2 ≠ "q3") := by
  refine ⟨by decide, rfl, by decide⟩

/-- C7 amended: the memory-persistence invariant holds initially and is
preserved by every `handle` call: the buffer respects its limit, the
persisted `longterm_saved` cursor is non-decreasing across successive calls
for every `(user_id, session_id)`, the recorded `store_conversation` calls
have pairwise-ordered (disjoint) index ranges that all end at or before the
cursor, and the call list only grows. The exactly-once forwarding part of
the claim is false (see the counterexample): once the capped buffer drops
old turns, `updated_context[prev_saved:]` skips turns that were never
stored. -/
theorem c7_amended :
    (∀ sL : Nat, MemInv sL ({} : HState))
    ∧ (∀ (mR sL : Nat) (o : Oracles) (hs : HState) (uid t sid : String)
        (sm : Bool),
        MemInv sL hs →
        MemInv sL (handle mR sL o hs uid t sid sm).2
        ∧ (∀ u s, savedAt hs u s ≤ savedAt (handle mR sL o hs uid t sid sm).2 u s)
        ∧ ∃ tail, (handle mR sL o hs uid t sid sm).2.storeCalls =
            hs.storeCalls ++ tail) :=
  ⟨memInv_init,
   fun mR sL o hs uid t sid sm hinv => handle_meminv mR sL o hs uid t sid sm hinv⟩

theorem c7_amended_witness :
    MemInv 5 ({} : HState)
    ∧ (MemInv 5 cexC7Run1.2
       ∧ (∀ u s, savedAt ({} : HState) u s ≤ savedAt cexC7Run1.2 u s)
       ∧ ∃ tail, cexC7Run1.2.storeCalls = ({} : HState).storeCalls ++ tail) :=
  ⟨c7_amended.1 5,
   c7_amended.2 6 5 cexC7Oracles {} "u" "q1" "s" false (c7_amended.1 5)⟩

/-- C9 counterexample: a tool exception's raw text (`E_SECRET_TOKEN_LEAK`)
appears verbatim inside the user-visible clarification message. -/
theorem c9_counterexample :
    cexC9Oracles.tool 0 = .error "E_SECRET_TOKEN_LEAK"
    ∧ resultType cexC9Run.1 = .vstr "clarification"
    ∧ isSubstring "E_SECRET_TOKEN_LEAK" (pyStr (resultGet cexC9Run.1 "message")) = true :=
  ⟨rfl, rfl, rfl⟩

/-- C9 amended: every `handle` and every `resume` result is either a
terminal `"answer"` or a `"clarification"` with a non-empty options list;
however, the message/answer text is built with raw `str(e)` interpolation,
so internal exception text can appear verbatim inside those fields. -/
theorem c9_amended :
    (∀ (maxRounds shortLimit : Nat) (o : Oracles) (hs : HState)
      (userId text sessionId : String) (sm : Bool),
      resultWellShaped (handle maxRounds shortLimit o hs userId text sessionId sm).1)
    ∧ (∀ (maxRounds shortLimit : Nat) (o : Oracles) (hs : HState)
      (userId userReply sessionId : String),
      resultWellShaped (resume maxRounds shortLimit o hs userId userReply sessionId).1) :=
  ⟨handle_wellShaped, resume_wellShaped⟩

theorem c9_amended_witness :
    resultWellShaped (handle 6 5 cexC9Oracles {} "u" "q" "s" false).1
    ∧ resultWellShaped (resume 6 5 cexBase {} "u" "retry" "s").1 :=
  ⟨c9_amended.1 6 5 cexC9Oracles {} "u" "q" "s" false,
   c9_amended.2 6 5 cexBase {} "u" "retry" "s"⟩

end AgenticChatbot
